import Mathlib

/-!
# Verification of the Dart VM isolate hot-reload engine

A shallow embedding of the reload engine found in `runtime/vm/isolate_reload.cc`,
`runtime/vm/object_reload.cc` and `runtime/vm/become.cc` (the latter is appended
to `isolate_reload.cc` in this source drop), together with proofs of the spec's
claims about it.

Modelling conventions:
* VM handles (`Class&`, `Library&`, `Field&`, ...) become Lean structures; a raw
  null handle becomes `Option`/a `none` entry.
* The class table is a `List (Option ClassV)` indexed by cid; an invalid slot is
  `none` (`ClassTable::HasValidClassAt`).
* Libraries have object identity (they are mutated in place by `set_index`), so
  they live in an identity store `List Library` and the isolate's libraries list
  holds store indices.
* Machine integers index small tables only, so `Nat`/`Int` are used directly.
-/

namespace DartReload

/-- Finalization state of a class (spec §3: unfinalized | prefinalized | finalized). -/
inductive FinState where
  | unfinalized
  | prefinalized
  | finalized
deriving Repr, DecidableEq

/-- Owner of a `Function`/`Field` object: the class itself, or the synthesized
patch class created by `Class::PatchFieldsAndFunctions`. -/
inductive OwnerKind where
  | ownClass
  | patchClass
deriving Repr, DecidableEq

/-- A `Field` object (`vm/object.h`): name, static flag, and - for static
fields - the current value of its storage cell (values abstracted to `Nat`). -/
structure FieldV where
  fname : String
  fstatic : Bool
  staticValue : Nat
  owner : OwnerKind := OwnerKind.ownClass
deriving Repr, DecidableEq

/-- A `Class` object, restricted to the state the reload engine reads and
writes.  `offsetToFieldMap` is `Class::OffsetToFieldMap()`: the field name at
each instance-field offset walking the superclass chain, `none` for a null
entry.  `finalizeErr` is the error that `replacement.EnsureIsFinalized` would
return (`none` when finalization succeeds). -/
structure ClassV where
  cid : Nat
  cname : String
  libUrl : Option String
  isPatch : Bool
  finState : FinState := FinState.finalized
  finalizeErr : Option String := none
  instanceSize : Nat := 0
  numNativeFields : Nat := 0
  offsetToFieldMap : List (Option String) := []
  cfields : List FieldV := []
  isEnumClass : Bool := false
  enumConsts : List (String × Nat) := []
  canonicalConsts : List Nat := []
deriving Repr, DecidableEq

def ClassV.is_finalized (c : ClassV) : Bool := c.finState = FinState.finalized

def ClassV.is_prefinalized (c : ClassV) : Bool := c.finState = FinState.prefinalized

/-- `IsolateReloadContext::IsSameClass` (isolate_reload.cc:109-129): the names
must be equal and the owning libraries' URLs must be equal (a null library
contributes a null URL). -/
def isSameClass (a b : ClassV) : Bool :=
  if a.cname = b.cname then a.libUrl = b.libUrl else false

/-- `IsolateReloadContext::IsSameLibrary` (isolate_reload.cc:132-139):
libraries are the same when their URLs are equal. -/
def isSameLibraryUrl (a b : Option String) : Bool :=
  a = b

/-- Result of `Class::CanReload` (object_reload.cc:201-282): the returned
boolean together with the diagnostic passed to `IRC->ReportError`, if any. -/
structure CanReloadResult where
  ok : Bool
  reported : Option String
deriving Repr, DecidableEq

/-- Field-map comparison loop of `Class::CanReload`: at every offset where the
old map has a non-null field, the names must match; null entries are skipped.
Returns the first "Name of instance field changed" diagnostic, if any. -/
def fieldMapMismatch (cname : String) :
    List (Option String) → List (Option String) → Option String
  | [], _ => none
  | _ :: fs, [] => fieldMapMismatch cname fs []
  | none :: fs, _ :: rs => fieldMapMismatch cname fs rs
  | some f :: fs, r :: rs =>
      let rn := match r with
        | some rn => rn
        | none => ""
      if f = rn then fieldMapMismatch cname fs rs
      else some ("Name of instance field changed ('" ++ f ++ "' vs '" ++ rn ++
        "') in '" ++ cname ++ "'")

/-- The finalized/prefinalized branch of `Class::CanReload`, returning the
first diagnostic, `none` when the branch passes.  The first `is_finalized()`
test is the `EnsureIsFinalized(replacement)` block; the second is the
offset-to-field-map comparison; the `else if (is_prefinalized())` branch checks
the replacement's prefinalization and the instance sizes. -/
def canReloadBranchErr (old replacement : ClassV) : Option String :=
  if old.is_finalized then
    match replacement.finalizeErr with
    | some e => some e
    | none =>
      if old.offsetToFieldMap.length ≠ replacement.offsetToFieldMap.length then
        some ("Number of instance fields changed in " ++ old.cname)
      else
        fieldMapMismatch old.cname old.offsetToFieldMap replacement.offsetToFieldMap
  else if old.is_prefinalized then
    if ¬ replacement.is_prefinalized then
      some ("Original class ('" ++ old.cname ++
        "') is prefinalized and replacement class ('" ++ replacement.cname ++ "')")
    else if old.instanceSize ≠ replacement.instanceSize then
      some ("Instance size mismatch between '" ++ old.cname ++
        "' and replacement '" ++ replacement.cname ++ "'")
    else none
  else none

/-- `Class::CanReload(replacement)` (object_reload.cc:201-282).  `old` is
`this`, the class being replaced.  After the branch checks, the native-field
counts are compared in every case. -/
def canReload (old replacement : ClassV) : CanReloadResult :=
  match canReloadBranchErr old replacement with
  | some msg => { ok := false, reported := some msg }
  | none =>
    if old.numNativeFields ≠ replacement.numNativeFields then
      { ok := false,
        reported := some ("Number of native fields changed in " ++ old.cname) }
    else { ok := true, reported := none }

/-- The condition claim C4 states for the finalized case: equal map lengths and
equal field names at every offset whose old entry is non-null. -/
def fieldMapsAgree (old replacement : ClassV) : Prop :=
  old.offsetToFieldMap.length = replacement.offsetToFieldMap.length ∧
  ∀ (i : Nat) (f : String), old.offsetToFieldMap[i]? = some (some f) →
    replacement.offsetToFieldMap[i]? = some (some f)

/-! ### Static field copying (Commit step 1) -/

/-- Inner loop of `Class::CopyStaticFieldValues` (object_reload.cc:149-176):
scan the old field list in order; every old field whose name equals the new
field's name overwrites the new field's static value (so the last match wins). -/
def migrateStaticValue (olds : List FieldV) (f : FieldV) : FieldV :=
  olds.foldl
    (fun acc old => if acc.fname = old.fname then { acc with staticValue := old.staticValue } else acc)
    f

/-- `Class::CopyStaticFieldValues(old_cls)` (object_reload.cc:149-176), acting
on the receiver's (the new class's) field list.  Only static fields migrate a
value; this variant records nothing in the become map. -/
def copyStaticFieldValues (newFields olds : List FieldV) : List FieldV :=
  newFields.map (fun f => if f.fstatic then migrateStaticValue olds f else f)

/-- A become-map entry: an (old object → new object) pair of fields. -/
abbrev BecomePair := FieldV × FieldV

/-- The static-field step of `IsolateReloadContext::Commit`
(isolate_reload.cc:520-549) for one `(new_cls, cls)` pair, threading the
become map through: `new_cls.CopyStaticFieldValues(cls)` updates the new
class's fields and leaves the become map as it found it (the cited
`Class::CopyStaticFieldValues` never calls `AddStaticFieldMapping`). -/
def commitCopyStaticsStep (becomeMap : List BecomePair) (newCls oldCls : ClassV) :
    ClassV × List BecomePair :=
  ({ newCls with cfields := copyStaticFieldValues newCls.cfields oldCls.cfields }, becomeMap)

/-- `Class::PatchFieldsAndFunctions` (object_reload.cc:179-198) restricted to
fields: every field of the old class is re-owned by a fresh patch class. -/
def patchFields (c : ClassV) : ClassV :=
  { c with cfields := c.cfields.map (fun f => { f with owner := OwnerKind.patchClass }) }

/-- `Class::ReplaceEnum` of the reconciler.  Modelled from the spec (§4.6,
step 1; the body of `Class::ReplaceEnum` is not in this source drop): for every
enum value name present on both classes, the old canonical instance is rebound
into the new class's canonical set under that name. -/
def replaceEnum (newCls oldCls : ClassV) : ClassV :=
  { newCls with
    enumConsts := newCls.enumConsts.map (fun p =>
      match oldCls.enumConsts.find? (fun q => q.1 = p.1) with
      | some q => (p.1, q.2)
      | none => p) }

/-! ### Class table (Commit step 2 and compaction) -/

/-- The isolate class table: slot `cid` holds the class with that id, `none`
when `ClassTable::HasValidClassAt(cid)` is false. -/
abbrev ClassTable := List (Option ClassV)

/-- `ClassTable::ReplaceClass(cls, new_cls)`.  Modelled from the spec (§4.7 and
§6; `class_table.cc` is not in this source drop): the entry at the old class's
cid is replaced by the new class, which adopts that cid. -/
def replaceClass (tbl : ClassTable) (oldCid : Nat) (newCls : ClassV) : ClassTable :=
  tbl.set oldCid (some { newCls with cid := oldCid })

/-- `ClassTable::MoveClass(dst, src)`.  Modelled from the spec (§4.7): the
class at `src` moves into slot `dst` and its stored cid becomes `dst`. -/
def moveClass (tbl : ClassTable) (dst src : Nat) : ClassTable :=
  match tbl[src]? with
  | some (some c) => tbl.set dst (some { c with cid := dst })
  | _ => tbl

/-- `ClassTable::DropNewClasses(n)`.  Modelled from the spec (§4.3/§6
`drop_above(n)`): every slot at cid ≥ n is dropped. -/
def dropNewClasses (tbl : ClassTable) (n : Nat) : ClassTable :=
  tbl.take n

/-- One iteration of the `ReplaceClasses` loop of `IsolateReloadContext::Commit`
(isolate_reload.cc:551-580) on a `(new_cls, cls)` pair with `new_cls ≠ cls`:
mark the slot currently occupied by the new class dead, install the new class
at the old class's cid, and record the (old → new) become pair. -/
def commitReplaceStep (st : ClassTable × List Bool × List (Nat × Nat)) (pair : Nat × Nat) :
    ClassTable × List Bool × List (Nat × Nat) :=
  let (tbl, dead, become) := st
  let (newCid, oldCid) := pair
  match tbl[newCid]? with
  | some (some newCls) =>
      (replaceClass tbl oldCid newCls, dead.set newCid true, become ++ [(oldCid, newCid)])
  | _ => (tbl, dead, become)

/-- The whole `ReplaceClasses` phase over the class-map pairs
(`(new cid, old cid)` with new ≠ old). -/
def commitReplacePhase (tbl : ClassTable) (dead : List Bool) (pairs : List (Nat × Nat)) :
    ClassTable × List Bool × List (Nat × Nat) :=
  pairs.foldl commitReplaceStep (tbl, dead, [])

/-- Inner loop of `IsolateReloadContext::CompactClassTable`
(isolate_reload.cc:485-496): scan upward from `j` for the first live slot
strictly below `top`. -/
def findLiveIndex (dead : List Bool) (top j : Nat) : Option Nat :=
  if h : j < top then
    if dead.getD j true then findLiveIndex dead top (j + 1) else some j
  else none
termination_by top - j

/-- Outer loop of `IsolateReloadContext::CompactClassTable`
(isolate_reload.cc:475-500): for each dead slot at `freeIndex ≥ saved_num_cids_`
move the next live class down into it; `newTop` counts the live prefix. -/
def compactLoop (tbl : ClassTable) (dead : List Bool) (newTop freeIndex top : Nat) :
    ClassTable × List Bool × Nat :=
  if h : freeIndex < top then
    if dead.getD freeIndex true then
      match findLiveIndex dead top (freeIndex + 1) with
      | some k =>
          compactLoop (moveClass tbl freeIndex k) (dead.set k true) (newTop + 1)
            (freeIndex + 1) top
      | none => compactLoop tbl dead newTop (freeIndex + 1) top
    else
      compactLoop tbl dead (newTop + 1) (freeIndex + 1) top
  else (tbl, dead, newTop)
termination_by top - freeIndex

/-- `IsolateReloadContext::CompactClassTable` (isolate_reload.cc:475-500):
compact the cid range `[saved_num_cids_, NumCids())` and drop the tail. -/
def compactClassTable (tbl : ClassTable) (dead : List Bool) (savedNumCids : Nat) : ClassTable :=
  let top := tbl.length
  let res := compactLoop tbl dead savedNumCids savedNumCids top
  dropNewClasses res.1 res.2.2

/-! ### Become: one-way identity forwarding (become.cc) -/

/-- A heap object as the become sweep sees it: an ordinary live object of some
size, or a free-list element / forwarding corpse whose payload's first word is
the raw pointer to the replacement (`FreeListElement::next`). -/
inductive BecomeObj where
  | live (size : Nat)
  | freeListElement (next : Nat) (size : Nat)
deriving Repr, DecidableEq

def BecomeObj.isFreeListElement : BecomeObj → Bool
  | BecomeObj.freeListElement _ _ => true
  | BecomeObj.live _ => false

def BecomeObj.size : BecomeObj → Nat
  | BecomeObj.live s => s
  | BecomeObj.freeListElement _ s => s

/-- The heap as the become sweep sees it: an object store addressed by object
id, and the flat collection of every root pointer and heap slot (each holding
the id of its target). -/
structure BecomeHeap where
  objs : List BecomeObj
  slots : List Nat
deriving Repr, DecidableEq

/-- First loop of `Become::ElementsForwardIdentity` (become.cc): convert each
`before[i]` in place into a forwarding corpse of its original size whose next
pointer is `after[i]`. -/
def setupForwarding (objs : List BecomeObj) : List (Nat × Nat) → List BecomeObj
  | [] => objs
  | (b, a) :: rest =>
      setupForwarding
        (objs.set b (BecomeObj.freeListElement a ((objs.getD b (BecomeObj.live 0)).size)))
        rest

/-- `ForwardPointersVisitor::VisitPointers` (become.cc): a pointer whose target
is a free-list element (forwarding corpse) is replaced by the corpse's next
pointer; every other pointer is left alone. -/
def forwardPointer (objs : List BecomeObj) (t : Nat) : Nat :=
  match objs[t]? with
  | some (BecomeObj.freeListElement nxt _) => nxt
  | _ => t

/-- `Become::ElementsForwardIdentity(before, after)` (become.cc): set up the
forwarding corpses, then rewrite every root pointer and heap slot through
`ForwardPointersVisitor`. -/
def elementsForwardIdentity (h : BecomeHeap) (before after : List Nat) : BecomeHeap :=
  let objs := setupForwarding h.objs (before.zip after)
  { objs := objs, slots := h.slots.map (forwardPointer objs) }

/-! ### ICData and function recompilation marking -/

/-- The target function recorded in an inline-cache entry: its static flag, its
name, and the names of the static functions its owner class currently has
(`Class::LookupStaticFunction` searches these). -/
structure TargetRef where
  isStaticFn : Bool
  tname : String
  ownerStatics : List String
deriving Repr, DecidableEq

/-- One inline-cache record (`ICData`), tagged with the PC-descriptor kind of
its call site (`RawPcDescriptors::kUnoptStaticCall` vs `kIcCall`), holding its
recorded check targets in order; `sentinelFilled` is true once
`ClearWithSentinel` has overwritten every entry cell with the sentinel. -/
structure ICDataV where
  isStaticCallSite : Bool
  targets : List TargetRef
  sentinelFilled : Bool := false
deriving Repr, DecidableEq

/-- `ICData::ClearWithSentinel`: every entry cell is overwritten with the
sentinel value. -/
def clearWithSentinel (ic : ICDataV) : ICDataV :=
  { ic with targets := [], sentinelFilled := true }

/-- `Class::LookupStaticFunction(selector)` on the recorded target's owner
class, represented by the owner's current static-function names. -/
def lookupStaticFunction (ownerStatics : List String) (selector : String) : Option TargetRef :=
  if selector ∈ ownerStatics then some { isStaticFn := true, tname := selector, ownerStatics }
  else none

/-- `ICData::Reset(is_static_call)` (object_reload.cc:290-315).  A static call
site rebinds its target by name (`ResetData(); AddTarget(new_target)`) and is
left untouched when the recorded target is a super call (not static) or when
the lookup fails; every other call site is cleared with sentinels. -/
def icDataReset (ic : ICDataV) (isStaticCall : Bool) : ICDataV :=
  if isStaticCall then
    match ic.targets.head? with
    | none => ic  -- ASSERT(!old_target.IsNull()) guards this in the source.
    | some oldTarget =>
      if ¬ oldTarget.isStaticFn then ic
      else
        match lookupStaticFunction oldTarget.ownerStatics oldTarget.tname with
        | none => ic
        | some newTarget => { ic with targets := [newTarget], sentinelFilled := false }
  else clearWithSentinel ic

/-- Compiled code as the recompilation mark cares about it: the
lazy-compilation stub (stub code) or a real code object. -/
inductive CodeV where
  | lazyCompileStub
  | real (id : Nat) (optimized : Bool)
deriving Repr, DecidableEq

def CodeV.isStubCode : CodeV → Bool
  | CodeV.lazyCompileStub => true
  | CodeV.real _ _ => false

/-- The function's `ic_data_array`: slot 0 holds the edge counters, the
remaining slots hold the ICData records indexed by deopt id (`none` when no
ICData was stored for that id). -/
structure ICArray where
  edgeCounters : List Nat
  cells : List (Option ICDataV)
deriving Repr, DecidableEq

/-- A `Function` object, restricted to the state
`MarkFunctionsForRecompilation` reads and writes.  `ownerLibIndex` is the
index of the owning class's library (`-1` for a deleted library). -/
structure FunctionV where
  currentCode : CodeV
  unoptimizedCode : Option CodeV := none
  icData : Option ICArray := none
  usageCounter : Nat := 0
  deoptCounter : Nat := 0
  optInstrCount : Nat := 0
  optCallSiteCount : Nat := 0
  ownerLibIndex : Int := 0
deriving Repr, DecidableEq

/-- `Function::SwitchToLazyCompiledUnoptimizedCode`.  Modelled from the spec
(§4.10 and the visitor comment "Switch to unoptimized code or the lazy
compilation stub"; `object.cc` is not in this source drop): the function's
current code becomes its unoptimized code when it has some, otherwise the
lazy-compilation stub. -/
def switchToLazyCompiledUnoptimizedCode (f : FunctionV) : FunctionV :=
  match f.unoptimizedCode with
  | some c => { f with currentCode := c }
  | none => { f with currentCode := CodeV.lazyCompileStub }

/-- `Function::ZeroEdgeCounters` (source drop, unnamed object_reload variant):
when the function has an ic_data_array, fill its edge-counter array (slot 0)
with zeros. -/
def zeroEdgeCounters (f : FunctionV) : FunctionV :=
  match f.icData with
  | none => f
  | some arr =>
      { f with icData := some { arr with edgeCounters := arr.edgeCounters.map (fun _ => 0) } }

/-- `Function::ClearICDataArray`.  Modelled from the spec (§4.10: "clear ...
its ICData array"; `object.cc` is not in this source drop): the ic_data_array
is nulled out. -/
def clearICDataArray (f : FunctionV) : FunctionV :=
  { f with icData := none }

/-- `Function::ClearCode`.  Modelled from the spec (§4.10: "clear both its
current code and its ICData array"; `object.cc` is not in this source drop):
the function loses its code and falls back to the lazy-compilation stub. -/
def clearCode (f : FunctionV) : FunctionV :=
  { f with currentCode := CodeV.lazyCompileStub, unoptimizedCode := none }

/-- `MarkFunctionsForRecompilation::ClearAllCode`: null out the ICData array
and the code. -/
def clearAllCode (f : FunctionV) : FunctionV :=
  clearCode (clearICDataArray f)

/-- `ClearICs` (source drop, unnamed object_reload variant), the body of
`Function::FillICDataWithSentinels`: walk the code's PC descriptors for
IC-call and unoptimized-static-call sites and `Reset` the ICData stored for
each deopt id, passing whether the site is a static call. -/
def fillICDataWithSentinels (f : FunctionV) : FunctionV :=
  match f.icData with
  | none => f
  | some arr =>
      { f with icData := some { arr with
          cells := arr.cells.map (fun c =>
            match c with
            | none => none
            | some ic => some (icDataReset ic ic.isStaticCallSite)) } }

/-- `IsolateReloadContext::IsDirty(lib)` (isolate_reload.cc:684-692): a
deleted library (index -1) is dirty; otherwise consult the library_infos side
table by index. -/
def isDirty (libraryInfosDirty : List Bool) (index : Int) : Bool :=
  if index = -1 then true
  else libraryInfosDirty.getD index.toNat false

/-- The `Function` branch of `MarkFunctionsForRecompilation::VisitObject`
(isolate_reload.cc:862-896). -/
def markFunctionForRecompilation (libraryInfosDirty : List Bool) (f : FunctionV) : FunctionV :=
  let f := switchToLazyCompiledUnoptimizedCode f
  let code := f.currentCode
  let clear := isDirty libraryInfosDirty f.ownerLibIndex
  let stub := code.isStubCode
  let f := zeroEdgeCounters f
  let f :=
    if ¬ stub then
      if clear then clearAllCode f else fillICDataWithSentinels f
    else f
  { f with usageCounter := 0, deoptCounter := 0, optInstrCount := 0, optCallSiteCount := 0 }

/-- A heap object as the recompilation-marking visitor sees it. -/
inductive HeapObj where
  | freeListElement
  | function (f : FunctionV)
  | other (id : Nat)
deriving Repr, DecidableEq

/-- `MarkFunctionsForRecompilation::VisitObject` (isolate_reload.cc:862-896):
free-list elements are skipped, functions are marked, everything else is left
alone. -/
def markVisitObject (libraryInfosDirty : List Bool) : HeapObj → HeapObj
  | HeapObj.freeListElement => HeapObj.freeListElement
  | HeapObj.function f => HeapObj.function (markFunctionForRecompilation libraryInfosDirty f)
  | HeapObj.other i => HeapObj.other i

/-- `IsolateReloadContext::MarkAllFunctionsForRecompilation`
(isolate_reload.cc:927-931): visit every heap object. -/
def markAllFunctionsForRecompilation (libraryInfosDirty : List Bool)
    (heap : List HeapObj) : List HeapObj :=
  heap.map (markVisitObject libraryInfosDirty)

/-! ### Libraries, the reload context and the controller -/

/-- A `Library` object: URL, mutable index, `dart_scheme` flag and the
`debuggable` bit copied during Commit. -/
structure LibraryV where
  url : Option String
  index : Int
  isDartScheme : Bool
  debuggable : Bool := true
deriving Repr, DecidableEq

/-- Libraries are mutated in place (`set_index`), so they live in an identity
store addressed by `LibId`. -/
abbrev LibId := Nat

abbrev LibStore := List LibraryV

/-- `Library::set_index(value)` on the library object with identity `id`. -/
def setLibIndex (store : LibStore) (id : LibId) (v : Int) : LibStore :=
  match store[id]? with
  | some lib => store.set id { lib with index := v }
  | none => store

/-- A canonical type-arguments table element: its current hash and an identity
key used by `TypeArguments::Equals`. -/
structure TypeArgsV where
  hashv : Nat
  key : Nat
deriving Repr, DecidableEq

/-- Probe loop of `IsolateReloadContext::RehashCanonicalTypeArguments`
(isolate_reload.cc:419-460): linear probing from the hash slot, stopping at an
empty slot or at an equal (duplicate) element; the modulus stands in for the
power-of-two mask.  Fuel bounds the probe. -/
def rehashProbe (tbl : List (Option TypeArgsV)) (el : TypeArgsV) : Nat → Nat → Nat
  | idx, 0 => idx
  | idx, fuel + 1 =>
      match tbl[idx]? with
      | some (some e) =>
          if e.key = el.key then idx
          else rehashProbe tbl el ((idx + 1) % tbl.length) fuel
      | _ => idx

/-- Insert one element into the fresh table at its freshly computed hash. -/
def rehashInsert (tbl : List (Option TypeArgsV)) (el : TypeArgsV) : List (Option TypeArgsV) :=
  tbl.set (rehashProbe tbl el (el.hashv % tbl.length) tbl.length) (some el)

/-- `IsolateReloadContext::RehashCanonicalTypeArguments`: allocate a table of
the same capacity and re-insert every non-null element by its new hash (the
trailing used-count slot of the source array is not modelled). -/
def rehashCanonicalTypeArguments (tbl : List (Option TypeArgsV)) : List (Option TypeArgsV) :=
  tbl.foldl
    (fun newTbl slot =>
      match slot with
      | some el => rehashInsert newTbl el
      | none => newTbl)
    (List.replicate tbl.length (none : Option TypeArgsV))

/-- The parts of the isolate / object store the reload engine touches. -/
structure IsolateState where
  classTable : ClassTable
  libStore : LibStore
  libs : List LibId
  rootLib : Option LibId
  canonTypeArgs : List (Option TypeArgsV) := []
  compileTimeConstants : Option (List Nat) := none
deriving Repr, DecidableEq

/-- A service event (`ServiceEvent::kIsolateReload`), with or without a reload
error attached. -/
inductive ServiceEvent where
  | reloadError (msg : String)
  | reloadSuccess
deriving Repr, DecidableEq

/-- `IsolateReloadContext`: error channel, checkpoint storage and mapping
tables (isolate_reload.h).  Mapping tables are association lists here; the
class map holds `(replacement_or_new cid, original cid)` pairs, the become map
abstract `(old id, new id)` pairs. -/
structure ReloadContext where
  hasError : Bool := false
  errorMsg : Option String := none
  savedNumCids : Nat := 0
  numSavedLibs : Nat := 0
  savedLibs : Option (List LibId) := none
  savedRootLib : Option LibId := none
  classMap : List (Nat × Nat) := []
  libraryMap : List (LibId × LibId) := []
  becomeMap : List (Nat × Nat) := []
  libraryInfosDirty : List Bool := []
deriving Repr, DecidableEq

/-- The isolate together with its reload context and the service-event sink. -/
structure VM where
  iso : IsolateState
  ctx : ReloadContext
  events : List ServiceEvent := []
deriving Repr, DecidableEq

/-- `IsolateReloadContext::ReportError` (isolate_reload.cc:164-178): set the
error channel and emit a reload service event carrying the error. -/
def reportError (vm : VM) (msg : String) : VM :=
  { vm with
    ctx := { vm.ctx with hasError := true, errorMsg := some msg },
    events := vm.events ++ [ServiceEvent.reloadError msg] }

/-- `IsolateReloadContext::ReportSuccess` (isolate_reload.cc:181-184): emit a
reload service event with no error attached. -/
def reportSuccess (vm : VM) : VM :=
  { vm with events := vm.events ++ [ServiceEvent.reloadSuccess] }

/-- `IsolateReloadContext::CheckpointClasses` (isolate_reload.cc:263-268):
remember the current class count. -/
def checkpointClasses (vm : VM) : VM :=
  { vm with ctx := { vm.ctx with savedNumCids := vm.iso.classTable.length } }

/-- The loop of `IsolateReloadContext::CheckpointLibraries`
(isolate_reload.cc:283-294): dart-scheme libraries get their new compact index
and join the new list; all other libraries get index -1. -/
def checkpointLibsLoop (store : LibStore) (pending newLibs : List LibId) :
    LibStore × List LibId :=
  match pending with
  | [] => (store, newLibs)
  | id :: rest =>
    match store[id]? with
    | some lib =>
        if lib.isDartScheme then
          checkpointLibsLoop (setLibIndex store id newLibs.length) rest (newLibs ++ [id])
        else
          checkpointLibsLoop (setLibIndex store id (-1)) rest newLibs
    | none => checkpointLibsLoop store rest newLibs

/-- `IsolateReloadContext::CheckpointLibraries` (isolate_reload.cc:271-304):
filter the libraries list down to the dart-scheme libraries, save the full
original list and the root library, and clear the root library. -/
def checkpointLibraries (vm : VM) : VM :=
  let p := checkpointLibsLoop vm.iso.libStore vm.iso.libs []
  { vm with
    iso := { vm.iso with libStore := p.1, libs := p.2, rootLib := none },
    ctx := { vm.ctx with
      savedLibs := some vm.iso.libs,
      numSavedLibs := p.2.length,
      savedRootLib := vm.iso.rootLib } }

/-- `IsolateReloadContext::Checkpoint` (isolate_reload.cc:307-314): checkpoint
classes and libraries and clear the compile-time-constants cache. -/
def checkpoint (vm : VM) : VM :=
  let vm := checkpointClasses vm
  let vm := checkpointLibraries vm
  { vm with iso := { vm.iso with compileTimeConstants := none } }

/-- `IsolateReloadContext::RollbackClasses` (isolate_reload.cc:317-321): drop
every class-table slot at cid at or above the saved class count. -/
def rollbackClasses (vm : VM) : VM :=
  { vm with iso := { vm.iso with
      classTable := dropNewClasses vm.iso.classTable vm.ctx.savedNumCids } }

/-- The index-reassignment loop shared by `RollbackLibraries` and the
`UpdateLibrariesArray` step of `Commit`: the library at list position `k`
(counting from `i`) gets index `i + k`. -/
def reassignIndicesLoop (store : LibStore) (l : List LibId) (i : Nat) : LibStore :=
  match l with
  | [] => store
  | id :: rest => reassignIndicesLoop (setLibIndex store id (Int.ofNat i)) rest (i + 1)

/-- `IsolateReloadContext::RollbackLibraries` (isolate_reload.cc:324-346):
restore the saved libraries list reasserting each library's original index,
restore the saved root library when there is one, and clear the saved slots. -/
def rollbackLibraries (vm : VM) : VM :=
  let p :=
    match vm.ctx.savedLibs with
    | some sl => (reassignIndicesLoop vm.iso.libStore sl 0, sl)
    | none => (vm.iso.libStore, vm.iso.libs)
  let root :=
    match vm.ctx.savedRootLib with
    | some r => some r
    | none => vm.iso.rootLib
  { vm with
    iso := { vm.iso with libStore := p.1, libs := p.2, rootLib := root },
    ctx := { vm.ctx with savedLibs := none, savedRootLib := none } }

/-- `IsolateReloadContext::Rollback` (isolate_reload.cc:349-352). -/
def rollback (vm : VM) : VM :=
  rollbackLibraries (rollbackClasses vm)

/-- `IsolateReloadContext::LinearFindOldClass` (isolate_reload.cc:968-984):
scan the valid class-table slots below the saved class count for a class that
`IsSameClass` matches (the lower VM-isolate cid bound is taken as 0 here). -/
def linearFindOldClass (vm : VM) (c : ClassV) : Option Nat :=
  (List.range vm.ctx.savedNumCids).find? (fun i =>
    match vm.iso.classTable[i]? with
    | some (some oldc) => isSameClass c oldc
    | _ => false)

/-- `IsolateReloadContext::BuildClassMapping` (isolate_reload.cc:987-1012):
for every valid class added at or above the saved class count, map it to the
matching old class, or to itself when it is brand new. -/
def buildClassMapping (vm : VM) : VM :=
  let pairs := (List.range vm.iso.classTable.length).filterMap (fun i =>
    if i < vm.ctx.savedNumCids then none
    else
      match vm.iso.classTable[i]? with
      | some (some c) =>
          match linearFindOldClass vm c with
          | some oldCid => some (i, oldCid)
          | none => some (i, i)
      | _ => none)
  { vm with ctx := { vm.ctx with classMap := pairs } }

/-- `IsolateReloadContext::LinearFindOldLibrary` (isolate_reload.cc:1015-1029):
scan the saved libraries for one with the same URL. -/
def linearFindOldLibrary (store : LibStore) (savedLibs : List LibId)
    (url : Option String) : Option LibId :=
  savedLibs.find? (fun oid =>
    match store[oid]? with
    | some ol => isSameLibraryUrl url ol.url
    | none => false)

/-- `IsolateReloadContext::BuildLibraryMapping` (isolate_reload.cc:1032-1055):
for every non-dart-scheme library in the current list, map it to the matching
saved library (also queueing an (old → new) become pair) or to itself. -/
def buildLibraryMapping (vm : VM) : VM :=
  let saved := vm.ctx.savedLibs.getD []
  let acc :=
    vm.iso.libs.foldl
      (fun acc id =>
        match vm.iso.libStore[id]? with
        | some lib =>
            if lib.isDartScheme then acc
            else
              match linearFindOldLibrary vm.iso.libStore saved lib.url with
              | some oldId => (acc.1 ++ [(id, oldId)], acc.2 ++ [(oldId, id)])
              | none => (acc.1 ++ [(id, id)], acc.2)
        | none => acc)
      (([], vm.ctx.becomeMap) : List (LibId × LibId) × List (Nat × Nat))
  { vm with ctx := { vm.ctx with libraryMap := acc.1, becomeMap := acc.2 } }

/-- The loop of `IsolateReloadContext::ValidateReload`
(isolate_reload.cc:710-726): run `CanReload` over every mapped pair with
`new ≠ old`, stopping at the first failure, whose diagnostic was reported to
the context by `CanReload` itself. -/
def validateLoop (vm : VM) : List (Nat × Nat) → Bool × VM
  | [] => (true, vm)
  | (newCid, oldCid) :: rest =>
      if newCid = oldCid then validateLoop vm rest
      else
        match vm.iso.classTable[oldCid]?, vm.iso.classTable[newCid]? with
        | some (some oldC), some (some newC) =>
            let r := canReload oldC newC
            if r.ok then validateLoop vm rest
            else
              (false,
                match r.reported with
                | some m => reportError vm m
                | none => vm)
        | _, _ => validateLoop vm rest

/-- `IsolateReloadContext::ValidateReload` (isolate_reload.cc:703-727): false
immediately when the context already holds an error, otherwise check every
mapped class pair. -/
def validateReload (vm : VM) : Bool × VM :=
  if vm.ctx.hasError then (false, vm) else validateLoop vm vm.ctx.classMap

/-- Step 1 of `IsolateReloadContext::Commit` (isolate_reload.cc:520-549) for
one class-map pair: replace the enum instances for finalized enum classes,
copy static field values and canonical constants onto the new class, and move
the old class's fields to a patch class. -/
def commitPairStep1 (tbl : ClassTable) (pair : Nat × Nat) : ClassTable :=
  let (newCid, oldCid) := pair
  if newCid = oldCid then tbl
  else
    match tbl[newCid]?, tbl[oldCid]? with
    | some (some newC), some (some oldC) =>
        let newC :=
          if newC.isEnumClass ∧ newC.is_finalized = true then replaceEnum newC oldC else newC
        let newC :=
          { newC with
            cfields := copyStaticFieldValues newC.cfields oldC.cfields,
            canonicalConsts := oldC.canonicalConsts }
        (tbl.set newCid (some newC)).set oldCid (some (patchFields oldC))
    | _, _ => tbl

/-- Step 3 of `IsolateReloadContext::Commit` (isolate_reload.cc:584-606): copy
the `debuggable` bit from each old library to its replacement. -/
def commitCopyLibraryBits (store : LibStore) (libMap : List (LibId × LibId)) : LibStore :=
  libMap.foldl
    (fun st p =>
      match st[p.1]?, st[p.2]? with
      | some newLib, some oldLib => st.set p.1 { newLib with debuggable := oldLib.debuggable }
      | _, _ => st)
    store

/-- Step 4 of `IsolateReloadContext::Commit` (isolate_reload.cc:608-627):
reassign each library its list-order index and build the library_infos side
table, marking dirty every library at or after the saved (clean) prefix. -/
def commitUpdateLibraries (store : LibStore) (libs : List LibId) (numSavedLibs : Nat) :
    LibStore × List Bool :=
  (reassignIndicesLoop store libs 0,
   (List.range libs.length).map (fun i => decide (i ≥ numSavedLibs)))

/-- `IsolateReloadContext::Commit` (isolate_reload.cc:503-681) on the modelled
state.  The `Become::ElementsForwardIdentity` sweep over the heap is modelled
separately (`elementsForwardIdentity`); here the accumulated become pairs are
kept in the context. -/
def commit (vm : VM) : VM :=
  let dead := List.replicate vm.iso.classTable.length false
  let tbl := vm.ctx.classMap.foldl commitPairStep1 vm.iso.classTable
  let rcp :=
    commitReplacePhase tbl dead (vm.ctx.classMap.filter (fun p => decide (p.1 ≠ p.2)))
  let store := commitCopyLibraryBits vm.iso.libStore vm.ctx.libraryMap
  let upd := commitUpdateLibraries store vm.iso.libs vm.ctx.numSavedLibs
  let tbl := compactClassTable rcp.1 rcp.2.1 vm.ctx.savedNumCids
  { vm with
    iso := { vm.iso with
      classTable := tbl,
      libStore := upd.1,
      canonTypeArgs := rehashCanonicalTypeArguments vm.iso.canonTypeArgs },
    ctx := { vm.ctx with
      becomeMap := vm.ctx.becomeMap ++ rcp.2.2,
      libraryInfosDirty := upd.2 } }

/-- `IsolateReloadContext::PostCommit` (isolate_reload.cc:695-700): clear the
saved root library and libraries list.  `InvalidateWorld` acts on the code
world, modelled separately (`markAllFunctionsForRecompilation`, `icDataReset`). -/
def postCommit (vm : VM) : VM :=
  { vm with ctx := { vm.ctx with savedRootLib := none, savedLibs := none } }

/-- The opening of `IsolateReloadContext::FinishReload`: allocate a fresh
become map, then build the class and library mappings. -/
def mappingPhase (vm : VM) : VM :=
  let vm := { vm with ctx := { vm.ctx with becomeMap := [] } }
  buildLibraryMapping (buildClassMapping vm)

/-- `IsolateReloadContext::FinishReload` (isolate_reload.cc:219-238), together
with the boolean saying whether the commit branch was taken: build the
mappings, then commit or roll back on the outcome of `ValidateReload`. -/
def finishReloadCore (vm : VM) : VM × Bool :=
  let r := validateReload (mappingPhase vm)
  if r.1 then (postCommit (commit r.2), true) else (rollback r.2, false)

/-- `IsolateReloadContext::FinishReload` proper. -/
def finishReload (vm : VM) : VM :=
  (finishReloadCore vm).1

/-- `IsolateReloadContext::StartReload` (isolate_reload.cc:186-216) with the
external loader's outcome as a parameter: checkpoint, invoke the loader, and
report its error if it produced one.  (`SwitchStackToUnoptimizedCode` acts on
the stack, which is not part of the modelled state; the loader's mutation of
the class table and libraries is external and appears as a hypothesis in the
theorems.) -/
def startReload (vm : VM) (loaderError : Option String) : VM :=
  let vm := checkpoint vm
  match loaderError with
  | some err => reportError vm err
  | none => vm

/-- The reload controller around `StartReload`/`FinishReload`.  Modelled from
the spec (§4.11): the caller of `FinishReload` is not in this source drop; per
the spec it emits the reload-success service event on the commit path and then
destroys the context.  The error path's event is emitted by `ReportError`
inside the source functions. -/
def reloadRun (vm : VM) (loaderError : Option String) : VM :=
  let vm := startReload vm loaderError
  let r := finishReloadCore vm
  if r.2 then reportSuccess r.1 else r.1

/-- The external loader's effect between `StartReload` and `FinishReload`.
Modelled from the spec (§6: the loader appends the freshly loaded classes and
libraries to the isolate's class table, library store and libraries list, and
may set the root library and report an error; the reload context's checkpoint
storage is not the loader's to touch). -/
def LoaderStep (s mid : VM) : Prop :=
  (∃ extra, mid.iso.classTable = s.iso.classTable ++ extra) ∧
  (∃ extraLibs, mid.iso.libStore = s.iso.libStore ++ extraLibs) ∧
  mid.ctx.savedNumCids = s.ctx.savedNumCids ∧
  mid.ctx.savedLibs = s.ctx.savedLibs ∧
  mid.ctx.savedRootLib = s.ctx.savedRootLib ∧
  mid.ctx.numSavedLibs = s.ctx.numSavedLibs

/-- Whether every ICData stored in the function's ic_data_array has been
overwritten with sentinel values. -/
def icCellSentinelFilled : Option ICDataV → Bool
  | none => true
  | some ic => ic.sentinelFilled

def allICCellsSentinelFilled (f : FunctionV) : Bool :=
  match f.icData with
  | none => true
  | some arr => arr.cells.all icCellSentinelFilled

/-- A clean-library predicate on a library id, as `CheckpointLibraries` uses
`is_dart_scheme` to partition the list. -/
def isCleanLib (store : LibStore) (id : LibId) : Bool :=
  match store[id]? with
  | some lib => lib.isDartScheme
  | none => false

/-! ### Concrete sample inputs used by the witnesses and counterexamples -/

/-- A finalized sample class (the old side). -/
def cOld4 : ClassV :=
  { cid := 5, cname := "A", libUrl := some "file:///a.dart", isPatch := false,
    offsetToFieldMap := [none, some "f"], instanceSize := 8 }

/-- A finalized sample class (the replacement side). -/
def cNew4 : ClassV :=
  { cid := 9, cname := "A", libUrl := some "file:///a.dart", isPatch := false,
    offsetToFieldMap := [none, some "f"], instanceSize := 8 }

/-- A patch class and a non-patch class with the same name and library URL. -/
def clsPatchA : ClassV :=
  { cid := 0, cname := "C", libUrl := some "file:///lib.dart", isPatch := true }

def clsPatchB : ClassV :=
  { cid := 1, cname := "C", libUrl := some "file:///lib.dart", isPatch := false }

/-- Old class carrying a static field `x` with value 7. -/
def cOld6 : ClassV :=
  { cid := 1, cname := "B", libUrl := some "file:///b.dart", isPatch := false,
    cfields := [{ fname := "x", fstatic := true, staticValue := 7 }] }

/-- Replacement class whose static field `x` starts at its initializer value. -/
def cNew6 : ClassV :=
  { cid := 3, cname := "B", libUrl := some "file:///b.dart", isPatch := false,
    cfields := [{ fname := "x", fstatic := true, staticValue := 0 }] }

/-- A static-call ICData whose recorded target is a super call (not static). -/
def icSuper : ICDataV :=
  { isStaticCallSite := true,
    targets := [{ isStaticFn := false, tname := "m", ownerStatics := [] }] }

/-- A static-call ICData whose target's owner class still has a static
function of the target's name. -/
def icRebindable : ICDataV :=
  { isStaticCallSite := true,
    targets := [{ isStaticFn := true, tname := "sm", ownerStatics := ["sm"] }] }

/-- A function from a clean library, with unoptimized code and one static-call
ICData that can be rebound. -/
def fClean9 : FunctionV :=
  { currentCode := CodeV.lazyCompileStub,
    unoptimizedCode := some (CodeV.real 1 false),
    icData := some { edgeCounters := [5], cells := [some icRebindable] },
    usageCounter := 3, deoptCounter := 1, optInstrCount := 2, optCallSiteCount := 4,
    ownerLibIndex := 0 }

/-- A four-object heap with three pointer slots, used by the become witness. -/
def heap3 : BecomeHeap :=
  { objs := [BecomeObj.live 2, BecomeObj.live 3, BecomeObj.live 4, BecomeObj.live 5],
    slots := [0, 2, 3, 1] }

/-- A three-slot class table: two old classes and one replacement loaded above
the saved class count (2). -/
def tblC2 : ClassTable :=
  [some { cid := 0, cname := "A", libUrl := some "file:///m.dart", isPatch := false },
   some { cid := 1, cname := "B", libUrl := some "file:///m.dart", isPatch := false },
   some { cid := 2, cname := "B", libUrl := some "file:///m.dart", isPatch := false,
          instanceSize := 4 }]

/-- A small isolate: one clean (dart-scheme) library and one user library. -/
def vmSmall : VM :=
  { iso :=
      { classTable := [some clsPatchB],
        libStore :=
          [{ url := some "dart:core", index := 0, isDartScheme := true },
           { url := some "file:///main.dart", index := 1, isDartScheme := false }],
        libs := [0, 1],
        rootLib := some 1,
        canonTypeArgs := [] },
    ctx := {},
    events := [] }

/-- The small isolate after `StartReload` whose loader reported a parse error. -/
def vmSmallMid : VM :=
  startReload vmSmall (some "unexpected token")

/-! ## Theorems -/

/-- C5 counterexample: `IsSameClass` answers true for a patch class and a
non-patch class with equal names and equal library URLs, so sharing the
"is patch class" kind is not part of the predicate. -/
theorem isSameClass_patch_counterexample :
    ¬ (isSameClass clsPatchA clsPatchB = true ↔
        (clsPatchA.cname = clsPatchB.cname ∧ clsPatchA.libUrl = clsPatchB.libUrl ∧
         clsPatchA.isPatch = clsPatchB.isPatch)) := by
  decide

/-- C5 (amended): `IsolateReloadContext::IsSameClass(a, b)` returns true iff
the names of `a` and `b` are equal and their owning libraries' URLs are equal. -/
theorem isSameClass_spec (a b : ClassV) :
    isSameClass a b = true ↔ (a.cname = b.cname ∧ a.libUrl = b.libUrl) := by
  by_cases h : a.cname = b.cname <;> simp [isSameClass, h]

/-- C10: a static-call `ICData::Reset` leaves the ICData entirely unchanged
when the recorded target at index 0 is not a static function (a super-call
site) or when the target's owner class no longer has a static function with
the target's name. -/
theorem icDataReset_static_unchanged (ic : ICDataV) (t : TargetRef)
    (h0 : ic.targets.head? = some t)
    (h1 : t.isStaticFn = false ∨ t.tname ∉ t.ownerStatics) :
    icDataReset ic true = ic := by
  unfold icDataReset
  rw [h0]
  rcases h1 with h | h
  · simp [h]
  · by_cases hs : t.isStaticFn = true
    · simp [hs, lookupStaticFunction, h]
    · have hsf : t.isStaticFn = false := by
        cases hb : t.isStaticFn
        · rfl
        · exact absurd hb hs
      simp [hsf]

/-- C10 witness: the super-call sample ICData is left unchanged. -/
theorem icDataReset_static_unchanged_witness :
    icSuper.targets.head? =
      some { isStaticFn := false, tname := "m", ownerStatics := [] } ∧
    icDataReset icSuper true = icSuper :=
  ⟨by decide,
   icDataReset_static_unchanged icSuper
     { isStaticFn := false, tname := "m", ownerStatics := [] }
     (by decide) (Or.inl (by decide))⟩

/-- Whenever `Class::CanReload` returns false it has reported a diagnostic. -/
theorem canReload_false_reported (old replacement : ClassV)
    (h : (canReload old replacement).ok = false) :
    (canReload old replacement).reported ≠ none := by
  unfold canReload at h ⊢
  cases hbr : canReloadBranchErr old replacement with
  | some msg => simp [hbr]
  | none =>
      by_cases hn : old.numNativeFields = replacement.numNativeFields
      · rw [hbr] at h
        simp [hn] at h
      · simp [hn]

/-- The field-map comparison loop succeeds exactly when the maps agree at
every offset with a non-null old entry, given aligned null entries (the loop's
debug assertion) and equal lengths. -/
theorem fieldMapMismatch_none_iff (cname : String) (xs : List (Option String)) :
    ∀ (ys : List (Option String)), xs.length = ys.length →
    (∀ i : Nat, i < xs.length → (xs[i]? = some none ↔ ys[i]? = some none)) →
    (fieldMapMismatch cname xs ys = none ↔
      ∀ (i : Nat) (f : String), xs[i]? = some (some f) → ys[i]? = some (some f)) := by
  induction xs with
  | nil =>
      intro ys hlen halign
      simp [fieldMapMismatch]
  | cons x fs ih =>
      intro ys hlen halign
      cases ys with
      | nil => simp at hlen
      | cons y rs =>
          have hlen' : fs.length = rs.length := by simpa using hlen
          have halign' : ∀ i : Nat, i < fs.length →
              (fs[i]? = some none ↔ rs[i]? = some none) := by
            intro i hi
            simpa using halign (i + 1) (by simpa using Nat.succ_lt_succ hi)
          cases x with
          | none =>
              have h0 : y = none := by
                have := (halign 0 (by simp)).1 (by simp)
                simpa using this
              subst h0
              have hunf : fieldMapMismatch cname (none :: fs) (none :: rs) =
                  fieldMapMismatch cname fs rs := by
                simp [fieldMapMismatch]
              rw [hunf, ih rs hlen' halign']
              constructor
              · intro h i f hif
                cases i with
                | zero => simp at hif
                | succ n =>
                    have := h n f (by simpa using hif)
                    simpa using this
              · intro h i f hif
                have := h (i + 1) f (by simpa using hif)
                simpa using this
          | some f0 =>
              have hy : ∃ rn, y = some rn := by
                cases y with
                | none =>
                    have := (halign 0 (by simp)).2 (by simp)
                    simp at this
                | some rn => exact ⟨rn, rfl⟩
              obtain ⟨rn, rfl⟩ := hy
              by_cases hf : f0 = rn
              · subst hf
                have hunf : fieldMapMismatch cname (some f0 :: fs) (some f0 :: rs) =
                    fieldMapMismatch cname fs rs := by
                  simp [fieldMapMismatch]
                rw [hunf, ih rs hlen' halign']
                constructor
                · intro h i f hif
                  cases i with
                  | zero =>
                      have : f = f0 := by simpa using hif.symm
                      subst this
                      simp
                  | succ n =>
                      have := h n f (by simpa using hif)
                      simpa using this
                · intro h i f hif
                  have := h (i + 1) f (by simpa using hif)
                  simpa using this
              · have hL : fieldMapMismatch cname (some f0 :: fs) (some rn :: rs) ≠ none := by
                  simp [fieldMapMismatch, hf]
                constructor
                · intro h
                  exact absurd h hL
                · intro h
                  exfalso
                  have := h 0 f0 (by simp)
                  simp at this
                  exact hf this.symm

/-- C4: `Class::CanReload(replacement)` on an old class returns true iff the
offset-to-field maps agree when the old class is finalized, the replacement is
prefinalized with the same instance size when the old class is prefinalized,
and the native-field counts are equal in every case; on any mismatch a textual
diagnostic is recorded as the reload context error alongside the false return.
(The hypotheses: the replacement finalizes without error, and null entries of
the two field maps are aligned, as the loop's debug assertion documents.) -/
theorem canReload_spec (old replacement : ClassV)
    (hfin : replacement.finalizeErr = none)
    (halign : ∀ i : Nat, i < old.offsetToFieldMap.length →
      (old.offsetToFieldMap[i]? = some none ↔
       replacement.offsetToFieldMap[i]? = some none)) :
    ((canReload old replacement).ok = true ↔
      ((old.is_finalized = true → fieldMapsAgree old replacement) ∧
       (old.is_prefinalized = true →
         replacement.is_prefinalized = true ∧
         old.instanceSize = replacement.instanceSize) ∧
       old.numNativeFields = replacement.numNativeFields)) ∧
    ((canReload old replacement).ok = false →
      (canReload old replacement).reported ≠ none) := by
  refine ⟨?_, canReload_false_reported old replacement⟩
  have hok_iff : (canReload old replacement).ok = true ↔
      (canReloadBranchErr old replacement = none ∧
       old.numNativeFields = replacement.numNativeFields) := by
    unfold canReload
    cases hbr : canReloadBranchErr old replacement with
    | some msg => simp
    | none =>
        by_cases hn : old.numNativeFields = replacement.numNativeFields <;> simp [hn]
  have hbr_iff : canReloadBranchErr old replacement = none ↔
      ((old.is_finalized = true → fieldMapsAgree old replacement) ∧
       (old.is_prefinalized = true →
         replacement.is_prefinalized = true ∧
         old.instanceSize = replacement.instanceSize)) := by
    cases hst : old.finState with
    | unfinalized =>
        simp [canReloadBranchErr, ClassV.is_finalized, ClassV.is_prefinalized, hst]
    | prefinalized =>
        by_cases hp : replacement.finState = FinState.prefinalized
        · by_cases hsz : old.instanceSize = replacement.instanceSize <;>
            simp [canReloadBranchErr, ClassV.is_finalized, ClassV.is_prefinalized,
              hst, hp, hsz]
        · simp [canReloadBranchErr, ClassV.is_finalized, ClassV.is_prefinalized, hst, hp]
    | finalized =>
        by_cases hlen : old.offsetToFieldMap.length = replacement.offsetToFieldMap.length
        · have hiff := fieldMapMismatch_none_iff old.cname old.offsetToFieldMap
            replacement.offsetToFieldMap hlen halign
          simp [canReloadBranchErr, ClassV.is_finalized, ClassV.is_prefinalized, hst,
            hfin, hlen, fieldMapsAgree, hiff]
        · simp [canReloadBranchErr, ClassV.is_finalized, ClassV.is_prefinalized, hst,
            hfin, hlen, fieldMapsAgree]
  rw [hok_iff, hbr_iff, and_assoc]

/-- C4 witness: two compatible finalized classes pass `CanReload`. -/
theorem canReload_spec_witness :
    cNew4.finalizeErr = none ∧
    ((canReload cOld4 cNew4).ok = true ↔
      ((cOld4.is_finalized = true → fieldMapsAgree cOld4 cNew4) ∧
       (cOld4.is_prefinalized = true →
         cNew4.is_prefinalized = true ∧ cOld4.instanceSize = cNew4.instanceSize) ∧
       cOld4.numNativeFields = cNew4.numNativeFields)) :=
  ⟨by decide, (canReload_spec cOld4 cNew4 (by decide) (by decide)).1⟩

/-- Migrating a static value never changes the field's name, flag or owner. -/
theorem migrateStaticValue_shape (olds : List FieldV) (f : FieldV) :
    (migrateStaticValue olds f).fname = f.fname ∧
    (migrateStaticValue olds f).fstatic = f.fstatic ∧
    (migrateStaticValue olds f).owner = f.owner := by
  induction olds generalizing f with
  | nil => exact ⟨rfl, rfl, rfl⟩
  | cons g rest ih =>
      unfold migrateStaticValue at *
      simp only [List.foldl_cons]
      by_cases hg : f.fname = g.fname
      · simpa [hg] using ih { f with staticValue := g.staticValue }
      · simpa [hg] using ih f

/-- When no old field carries the new field's name, the inner loop leaves the
field alone. -/
theorem migrateStaticValue_no_match (olds : List FieldV) (f : FieldV)
    (h : ∀ g ∈ olds, g.fname ≠ f.fname) :
    migrateStaticValue olds f = f := by
  induction olds generalizing f with
  | nil => rfl
  | cons g rest ih =>
      unfold migrateStaticValue at *
      simp only [List.foldl_cons]
      have hg : ¬ f.fname = g.fname := fun hc => h g (by simp) (hc.symm)
      simpa [hg] using ih f (fun g hgm => h g (by simp [hgm]))

/-- Unfolding of the inner loop over a cons cell. -/
theorem migrateStaticValue_cons (g0 : FieldV) (rest : List FieldV) (f : FieldV) :
    migrateStaticValue (g0 :: rest) f =
      migrateStaticValue rest
        (if f.fname = g0.fname then { f with staticValue := g0.staticValue } else f) := rfl

/-- With unique old-field names, the matching old field's value wins. -/
theorem migrateStaticValue_match : ∀ (olds : List FieldV) (f g : FieldV),
    (olds.map FieldV.fname).Nodup → g ∈ olds → g.fname = f.fname →
    migrateStaticValue olds f = { f with staticValue := g.staticValue }
  | [], _, g, _, hg, _ => absurd hg (by simp)
  | g0 :: rest, f, g, hnd, hg, hname => by
      have hnd' : (rest.map FieldV.fname).Nodup := (List.nodup_cons.mp (by simpa using hnd)).2
      have hnotin : g0.fname ∉ rest.map FieldV.fname :=
        (List.nodup_cons.mp (by simpa using hnd)).1
      rcases List.mem_cons.mp hg with h0 | hrest
      · subst h0
        rw [migrateStaticValue_cons, if_pos hname.symm]
        apply migrateStaticValue_no_match
        intro g1 hg1 hc
        have hmem : g1.fname ∈ rest.map FieldV.fname := List.mem_map_of_mem FieldV.fname hg1
        have hval : g1.fname = g.fname := by
          have : g1.fname = f.fname := hc
          exact this.trans hname.symm
        rw [hval] at hmem
        exact hnotin hmem
      · have hne : ¬ f.fname = g0.fname := by
          intro hc
          have hmem : g.fname ∈ rest.map FieldV.fname := List.mem_map_of_mem FieldV.fname hrest
          rw [hname, hc] at hmem
          exact hnotin hmem
        rw [migrateStaticValue_cons, if_neg hne]
        exact migrateStaticValue_match rest f g hnd' hrest hname

/-- C6 counterexample: a same-named static field exists on both classes, yet
the static-field step of Commit records nothing in the become map (the copied
value does arrive). -/
theorem copyStatics_become_counterexample :
    (commitCopyStaticsStep [] cNew6 cOld6).2 = [] ∧
    (cNew6.cfields.any (fun f => f.fstatic &&
      cOld6.cfields.any (fun g => g.fstatic && decide (g.fname = f.fname)))) = true ∧
    (commitCopyStaticsStep [] cNew6 cOld6).1.cfields =
      [{ fname := "x", fstatic := true, staticValue := 7 }] := by
  decide

/-- C6 (amended): during Commit's static-field step, every static field on
the new class whose name matches an old field receives the old field's current
value, all other fields are untouched, and the become map is left unchanged
(no (old field → new field) pair is recorded by this step). -/
theorem commitCopyStatics_spec (bm : List BecomePair) (newCls oldCls : ClassV)
    (hnd : (oldCls.cfields.map FieldV.fname).Nodup) :
    (commitCopyStaticsStep bm newCls oldCls).2 = bm ∧
    (∀ (k : Nat) (f : FieldV), newCls.cfields[k]? = some f → f.fstatic = true →
      ∀ g ∈ oldCls.cfields, g.fname = f.fname →
        (commitCopyStaticsStep bm newCls oldCls).1.cfields[k]? =
          some { f with staticValue := g.staticValue }) ∧
    (∀ (k : Nat) (f : FieldV), newCls.cfields[k]? = some f →
      (f.fstatic = false ∨ ∀ g ∈ oldCls.cfields, g.fname ≠ f.fname) →
      (commitCopyStaticsStep bm newCls oldCls).1.cfields[k]? = some f) := by
  refine ⟨rfl, ?_, ?_⟩
  · intro k f hk hstat g hg hname
    show (copyStaticFieldValues newCls.cfields oldCls.cfields)[k]? = _
    unfold copyStaticFieldValues
    rw [List.getElem?_map, hk]
    show some (if f.fstatic then migrateStaticValue oldCls.cfields f else f) = _
    rw [if_pos hstat, migrateStaticValue_match oldCls.cfields f g hnd hg hname]
  · intro k f hk hcase
    show (copyStaticFieldValues newCls.cfields oldCls.cfields)[k]? = _
    unfold copyStaticFieldValues
    rw [List.getElem?_map, hk]
    show some (if f.fstatic then migrateStaticValue oldCls.cfields f else f) = some f
    rcases hcase with hstat | hnom
    · rw [if_neg (by simp [hstat])]
    · by_cases hstat : f.fstatic = true
      · rw [if_pos hstat, migrateStaticValue_no_match oldCls.cfields f hnom]
      · rw [if_neg hstat]

/-- C6 witness: the sample classes satisfy the amended statement. -/
theorem commitCopyStatics_spec_witness :
    (cOld6.cfields.map FieldV.fname).Nodup ∧
    (commitCopyStaticsStep [] cNew6 cOld6).2 = [] :=
  ⟨by decide, (commitCopyStatics_spec [] cNew6 cOld6 (by decide)).1⟩

/-- C9 counterexample: for a function of a clean library with preserved
unoptimized code, the recompilation mark does not fill every ICData cell with
sentinels - a static-call ICData is instead cleared and rebound to the target
looked up by name. -/
theorem markFunction_sentinel_counterexample :
    isDirty [false] fClean9.ownerLibIndex = false ∧
    (markFunctionForRecompilation [false] fClean9).currentCode.isStubCode = false ∧
    allICCellsSentinelFilled (markFunctionForRecompilation [false] fClean9) = false := by
  decide

/-- C9 (amended): the recompilation visitor skips free-list elements, leaves
non-function objects alone, and for every function: switches it to its
unoptimized code or the lazy-compilation stub, zeroes its edge counters,
resets its usage, deoptimization and optimized-instruction/call-site counters,
and, when the resulting code is not stub code, either clears both code and
ICData array (dirty library) or keeps the unoptimized code and resets each
stored ICData - instance-call ICData are sentinel-filled, static-call ICData
are rebound by name lookup (clean library). -/
theorem markFunctionForRecompilation_spec (infos : List Bool) (f : FunctionV) :
    markVisitObject infos HeapObj.freeListElement = HeapObj.freeListElement ∧
    (∀ i : Nat, markVisitObject infos (HeapObj.other i) = HeapObj.other i) ∧
    (∀ (heap : List HeapObj) (k : Nat),
      (markAllFunctionsForRecompilation infos heap)[k]? =
        (heap[k]?).map (markVisitObject infos)) ∧
    (markVisitObject infos (HeapObj.function f) =
      HeapObj.function (markFunctionForRecompilation infos f)) ∧
    ((markFunctionForRecompilation infos f).usageCounter = 0 ∧
     (markFunctionForRecompilation infos f).deoptCounter = 0 ∧
     (markFunctionForRecompilation infos f).optInstrCount = 0 ∧
     (markFunctionForRecompilation infos f).optCallSiteCount = 0) ∧
    (f.unoptimizedCode = none →
      (switchToLazyCompiledUnoptimizedCode f).currentCode = CodeV.lazyCompileStub) ∧
    (∀ c, f.unoptimizedCode = some c →
      (switchToLazyCompiledUnoptimizedCode f).currentCode = c) ∧
    (∀ arr, (markFunctionForRecompilation infos f).icData = some arr →
      ∀ n ∈ arr.edgeCounters, n = 0) ∧
    ((switchToLazyCompiledUnoptimizedCode f).currentCode.isStubCode = true →
      (markFunctionForRecompilation infos f).currentCode =
        (switchToLazyCompiledUnoptimizedCode f).currentCode) ∧
    ((switchToLazyCompiledUnoptimizedCode f).currentCode.isStubCode = false →
      isDirty infos f.ownerLibIndex = true →
      (markFunctionForRecompilation infos f).icData = none ∧
      (markFunctionForRecompilation infos f).currentCode = CodeV.lazyCompileStub ∧
      (markFunctionForRecompilation infos f).unoptimizedCode = none) ∧
    ((switchToLazyCompiledUnoptimizedCode f).currentCode.isStubCode = false →
      isDirty infos f.ownerLibIndex = false →
      (markFunctionForRecompilation infos f).currentCode =
        (switchToLazyCompiledUnoptimizedCode f).currentCode ∧
      (markFunctionForRecompilation infos f).unoptimizedCode = f.unoptimizedCode ∧
      (f.icData = none → (markFunctionForRecompilation infos f).icData = none) ∧
      (∀ arr0, f.icData = some arr0 →
        ∃ arr, (markFunctionForRecompilation infos f).icData = some arr ∧
          ∀ (k : Nat), arr.cells[k]? = (arr0.cells[k]?).map (fun c =>
            c.map (fun ic => icDataReset ic ic.isStaticCallSite)))) := by
  refine ⟨rfl, fun i => rfl, ?_, rfl, ?_, ?_, ?_, ?_, ?_, ?_, ?_⟩
  · intro heap k
    unfold markAllFunctionsForRecompilation
    exact List.getElem?_map _ heap k
  · -- counters
    cases hunopt : f.unoptimizedCode <;>
      cases hic : f.icData <;>
        by_cases hdirty : isDirty infos f.ownerLibIndex <;>
          simp [markFunctionForRecompilation, switchToLazyCompiledUnoptimizedCode,
            zeroEdgeCounters, clearAllCode, clearICDataArray, clearCode,
            fillICDataWithSentinels, hunopt, hic, hdirty, CodeV.isStubCode]
  · intro h
    simp [switchToLazyCompiledUnoptimizedCode, h]
  · intro c h
    simp [switchToLazyCompiledUnoptimizedCode, h]
  · -- edge counters
    intro arr harr n hn
    rcases hunopt : f.unoptimizedCode with _ | c <;>
      (try cases c) <;>
      rcases hic : f.icData with _ | a <;>
        by_cases hdirty : isDirty infos f.ownerLibIndex = true <;>
          simp [markFunctionForRecompilation, switchToLazyCompiledUnoptimizedCode,
            zeroEdgeCounters, clearAllCode, clearICDataArray, clearCode,
            fillICDataWithSentinels, hunopt, hic, hdirty, CodeV.isStubCode] at harr <;>
          (try subst harr) <;>
          (simp [List.mem_replicate] at hn; exact hn.2)
  · -- stub path
    intro hstub
    rcases hunopt : f.unoptimizedCode with _ | c
    · simp [markFunctionForRecompilation, switchToLazyCompiledUnoptimizedCode,
        zeroEdgeCounters, hunopt, CodeV.isStubCode]
      cases hic : f.icData <;> simp [hic]
    · unfold switchToLazyCompiledUnoptimizedCode at hstub
      simp [hunopt] at hstub
      simp [markFunctionForRecompilation, switchToLazyCompiledUnoptimizedCode,
        zeroEdgeCounters, hunopt, hstub]
      cases hic : f.icData <;> simp [hic, hstub]
  · -- dirty path
    intro hstub hdirty
    rcases hunopt : f.unoptimizedCode with _ | c
    · unfold switchToLazyCompiledUnoptimizedCode at hstub
      simp [hunopt, CodeV.isStubCode] at hstub
    · unfold switchToLazyCompiledUnoptimizedCode at hstub
      simp [hunopt] at hstub
      cases hic : f.icData <;>
        simp [markFunctionForRecompilation, switchToLazyCompiledUnoptimizedCode,
          zeroEdgeCounters, clearAllCode, clearICDataArray, clearCode,
          hunopt, hic, hdirty, hstub]
  · -- clean path
    intro hstub hdirty
    rcases hunopt : f.unoptimizedCode with _ | c
    · unfold switchToLazyCompiledUnoptimizedCode at hstub
      simp [hunopt, CodeV.isStubCode] at hstub
    · unfold switchToLazyCompiledUnoptimizedCode at hstub
      simp [hunopt] at hstub
      refine ⟨?_, ?_, ?_, ?_⟩
      · cases hic : f.icData <;>
          simp [markFunctionForRecompilation, switchToLazyCompiledUnoptimizedCode,
            zeroEdgeCounters, fillICDataWithSentinels, hunopt, hic, hdirty, hstub]
      · cases hic : f.icData <;>
          simp [markFunctionForRecompilation, switchToLazyCompiledUnoptimizedCode,
            zeroEdgeCounters, fillICDataWithSentinels, hunopt, hic, hdirty, hstub]
      · intro hic
        simp [markFunctionForRecompilation, switchToLazyCompiledUnoptimizedCode,
          zeroEdgeCounters, fillICDataWithSentinels, hunopt, hic, hdirty, hstub]
      · intro arr0 hic
        refine ⟨{ edgeCounters := arr0.edgeCounters.map (fun _ => 0),
                  cells := arr0.cells.map (fun c =>
                    c.map (fun ic => icDataReset ic ic.isStaticCallSite)) }, ?_, ?_⟩
        · simp [markFunctionForRecompilation, switchToLazyCompiledUnoptimizedCode,
            zeroEdgeCounters, fillICDataWithSentinels, hunopt, hic, hdirty, hstub]
          intro a _
          cases a <;> rfl
        · intro k
          simp [List.getElem?_map]

/-- C9 witness: the amended statement instantiated at the clean-library sample
function. -/
theorem markFunctionForRecompilation_spec_witness :
    (markFunctionForRecompilation [false] fClean9).usageCounter = 0 ∧
    (markFunctionForRecompilation [false] fClean9).currentCode = CodeV.real 1 false :=
  ⟨((markFunctionForRecompilation_spec [false] fClean9).2.2.2.2.1).1,
   by
    have h := (markFunctionForRecompilation_spec [false] fClean9).2.2.2.2.2.2.2.2.2.2
      (by decide) (by decide)
    rw [h.1]
    decide⟩

/-- An index carrying a `some` entry is within bounds. -/
theorem getElem?_some_lt {α : Type} (l : List α) (n : Nat) (a : α)
    (h : l[n]? = some a) : n < l.length := by
  by_contra hc
  rw [List.getElem?_eq_none (by omega)] at h
  cases h

/-- Unfolding the corpse-setup loop over a cons cell. -/
theorem setupForwarding_cons (objs : List BecomeObj) (b a : Nat)
    (rest : List (Nat × Nat)) :
    setupForwarding objs ((b, a) :: rest) =
      setupForwarding
        (objs.set b (BecomeObj.freeListElement a ((objs.getD b (BecomeObj.live 0)).size)))
        rest := rfl

/-- After the corpse-setup loop, objects outside `before` are untouched. -/
theorem setupForwarding_not_mem : ∀ (pairs : List (Nat × Nat)) (objs : List BecomeObj)
    (x : Nat), x ∉ pairs.map Prod.fst → (setupForwarding objs pairs)[x]? = objs[x]?
  | [], _, _, _ => rfl
  | (b, a) :: rest, objs, x, hx => by
      have hbx : b ≠ x := by
        intro hc
        exact hx (by rw [← hc]; simp)
      have hxr : x ∉ rest.map Prod.fst := fun hc => hx (by simp [hc])
      rw [setupForwarding_cons, setupForwarding_not_mem rest _ x hxr]
      exact List.getElem?_set_ne hbx

/-- After the corpse-setup loop, each `before[i]` is a forwarding corpse whose
next pointer is `after[i]` and whose size is the original object's size. -/
theorem setupForwarding_mem : ∀ (pairs : List (Nat × Nat)) (objs : List BecomeObj)
    (b a : Nat) (ob : BecomeObj),
    (pairs.map Prod.fst).Nodup → (b, a) ∈ pairs → objs[b]? = some ob →
    (setupForwarding objs pairs)[b]? = some (BecomeObj.freeListElement a ob.size)
  | [], _, _, _, _, _, hmem, _ => absurd hmem (by simp)
  | (b0, a0) :: rest, objs, b, a, ob, hnd, hmem, hob => by
      have hnd' : (rest.map Prod.fst).Nodup := (List.nodup_cons.mp (by simpa using hnd)).2
      have hnotin : b0 ∉ rest.map Prod.fst := (List.nodup_cons.mp (by simpa using hnd)).1
      rw [setupForwarding_cons]
      rcases List.mem_cons.mp hmem with h0 | hrest
      · injection h0 with hb ha
        subst hb
        subst ha
        rw [setupForwarding_not_mem rest _ b hnotin]
        have hblen : b < objs.length := getElem?_some_lt objs b ob hob
        have hgetD : objs.getD b (BecomeObj.live 0) = ob := by
          rw [List.getD_eq_getElem?_getD, hob]
          rfl
        rw [hgetD]
        exact List.getElem?_set_self hblen
      · have hbne : b ≠ b0 := by
          intro hc
          apply hnotin
          rw [← hc]
          exact List.mem_map_of_mem Prod.fst hrest
        exact setupForwarding_mem rest _ b a ob hnd' hrest
          (by rw [List.getElem?_set_ne (fun hc => hbne hc.symm)]; exact hob)

/-- C3: after `Become::ElementsForwardIdentity(before, after)` on equal-length
arrays, every pointer slot that referenced `before[i]` references `after[i]`,
every slot that referenced no element of `before` is unchanged, and the
storage of each `before[i]` is rewritten in place into a free-list-shaped
forwarding corpse of exactly the original object's size (so a heap walker
still iterates over it).  The hypotheses are the call's validated
preconditions: no duplicates in `before`, every `before[i]` a live heap
object, `after` disjoint from `before` (no self-forwarding and no forwarding
chains), and no pre-existing pointer to a free-list element (the DEBUG sweep). -/
theorem elementsForwardIdentity_spec (h : BecomeHeap) (before after : List Nat)
    (hlen : before.length = after.length)
    (hnd : before.Nodup)
    (hlive : ∀ (i : Nat) (hi : i < before.length), ∃ sz,
      h.objs[before.get ⟨i, hi⟩]? = some (BecomeObj.live sz))
    (hdisj : ∀ x ∈ after, x ∉ before)
    (hslots : ∀ t ∈ h.slots, ∃ sz, h.objs[t]? = some (BecomeObj.live sz)) :
    (∀ (j i : Nat) (hi : i < before.length),
      h.slots[j]? = some (before.get ⟨i, hi⟩) →
      (elementsForwardIdentity h before after).slots[j]? =
        some (after.get ⟨i, hlen ▸ hi⟩)) ∧
    (∀ (j t : Nat), h.slots[j]? = some t → t ∉ before →
      (elementsForwardIdentity h before after).slots[j]? = some t) ∧
    (∀ (i : Nat) (hi : i < before.length) (sz : Nat),
      h.objs[before.get ⟨i, hi⟩]? = some (BecomeObj.live sz) →
      (elementsForwardIdentity h before after).objs[before.get ⟨i, hi⟩]? =
        some (BecomeObj.freeListElement (after.get ⟨i, hlen ▸ hi⟩) sz)) := by
  have hfst : (before.zip after).map Prod.fst = before :=
    List.map_fst_zip before after (le_of_eq hlen)
  have hndfst : ((before.zip after).map Prod.fst).Nodup := by rw [hfst]; exact hnd
  have hzipmem : ∀ (i : Nat) (hi : i < before.length),
      (before.get ⟨i, hi⟩, after.get ⟨i, hlen ▸ hi⟩) ∈ before.zip after := by
    intro i hi
    have hz : (before.zip after)[i]? =
        some (before.get ⟨i, hi⟩, after.get ⟨i, hlen ▸ hi⟩) := by
      rw [List.getElem?_zip_eq_some]
      constructor
      · simp [List.getElem?_eq_getElem hi]
      · simp [List.getElem?_eq_getElem (hlen ▸ hi)]
    exact List.getElem?_mem hz
  have hcorpse : ∀ (i : Nat) (hi : i < before.length) (sz : Nat),
      h.objs[before.get ⟨i, hi⟩]? = some (BecomeObj.live sz) →
      (setupForwarding h.objs (before.zip after))[before.get ⟨i, hi⟩]? =
        some (BecomeObj.freeListElement (after.get ⟨i, hlen ▸ hi⟩) sz) := by
    intro i hi sz hob
    have := setupForwarding_mem (before.zip after) h.objs
      (before.get ⟨i, hi⟩) (after.get ⟨i, hlen ▸ hi⟩) (BecomeObj.live sz)
      hndfst (hzipmem i hi) hob
    simpa using this
  refine ⟨?_, ?_, ?_⟩
  · intro j i hi hj
    show (h.slots.map (forwardPointer (setupForwarding h.objs (before.zip after))))[j]? = _
    rw [List.getElem?_map, hj]
    obtain ⟨sz, hob⟩ := hlive i hi
    have hc := hcorpse i hi sz hob
    simp only [Option.map_some']
    unfold forwardPointer
    rw [hc]
  · intro j t hj ht
    show (h.slots.map (forwardPointer (setupForwarding h.objs (before.zip after))))[j]? = _
    rw [List.getElem?_map, hj]
    have hnotin : t ∉ (before.zip after).map Prod.fst := by rw [hfst]; exact ht
    obtain ⟨sz, hob⟩ := hslots t (List.getElem?_mem hj)
    simp only [Option.map_some']
    unfold forwardPointer
    rw [setupForwarding_not_mem (before.zip after) h.objs t hnotin, hob]
  · intro i hi sz hob
    exact hcorpse i hi sz hob

/-- C3 witness: a concrete four-object heap with `before = [0, 1]`,
`after = [2, 3]`. -/
theorem elementsForwardIdentity_spec_witness :
    ([0, 1] : List Nat).Nodup ∧
    (elementsForwardIdentity heap3 [0, 1] [2, 3]).slots[0]? = some 2 ∧
    (elementsForwardIdentity heap3 [0, 1] [2, 3]).slots[1]? = some 2 ∧
    (elementsForwardIdentity heap3 [0, 1] [2, 3]).objs[0]? =
      some (BecomeObj.freeListElement 2 2) := by
  have hlive : ∀ (i : Nat) (hi : i < ([0, 1] : List Nat).length), ∃ sz,
      heap3.objs[([0, 1] : List Nat).get ⟨i, hi⟩]? = some (BecomeObj.live sz) := by
    intro i hi
    match i, hi with
    | 0, _ => exact ⟨2, rfl⟩
    | 1, _ => exact ⟨3, rfl⟩
  have hslots : ∀ t ∈ heap3.slots, ∃ sz, heap3.objs[t]? = some (BecomeObj.live sz) := by
    intro t ht
    simp [heap3] at ht
    rcases ht with rfl | rfl | rfl | rfl
    · exact ⟨2, rfl⟩
    · exact ⟨4, rfl⟩
    · exact ⟨5, rfl⟩
    · exact ⟨3, rfl⟩
  have hmain := elementsForwardIdentity_spec heap3 [0, 1] [2, 3] (by decide) (by decide)
    hlive (by decide) hslots
  exact ⟨by decide,
    hmain.1 0 0 (by decide) (by decide),
    hmain.2.1 1 2 (by decide) (by decide),
    hmain.2.2 0 (by decide) 2 (by decide)⟩

/-- The replace-classes fold never touches a slot that is not some pair's old
cid. -/
theorem replaceFold_untouched : ∀ (pairs : List (Nat × Nat))
    (st : ClassTable × List Bool × List (Nat × Nat)) (i : Nat),
    (∀ p ∈ pairs, p.2 ≠ i) →
    ((pairs.foldl commitReplaceStep st).1)[i]? = (st.1)[i]?
  | [], _, _, _ => rfl
  | p :: rest, st, i, hp => by
      rw [List.foldl_cons,
        replaceFold_untouched rest _ i (fun q hq => hp q (List.mem_cons_of_mem p hq))]
      rcases st with ⟨tbl, dead, bc⟩
      rcases p with ⟨n, o⟩
      have hne : o ≠ i := hp (n, o) (List.mem_cons_self _ _)
      cases htn : tbl[n]? with
      | none => simp [commitReplaceStep, htn]
      | some oc =>
          cases oc with
          | none => simp [commitReplaceStep, htn]
          | some c => simp [commitReplaceStep, htn, replaceClass, List.getElem?_set_ne hne]

/-- The replace-classes fold preserves the class-table length. -/
theorem replaceFold_length : ∀ (pairs : List (Nat × Nat))
    (st : ClassTable × List Bool × List (Nat × Nat)),
    ((pairs.foldl commitReplaceStep st).1).length = (st.1).length
  | [], _ => rfl
  | p :: rest, st => by
      rw [List.foldl_cons, replaceFold_length rest _]
      rcases st with ⟨tbl, dead, bc⟩
      rcases p with ⟨n, o⟩
      cases htn : tbl[n]? with
      | none => simp [commitReplaceStep, htn]
      | some oc =>
          cases oc with
          | none => simp [commitReplaceStep, htn]
          | some c => simp [commitReplaceStep, htn, replaceClass]

/-- Every processed `(new cid, old cid)` pair installs the new class, with its
stored cid updated, at the old class's cid. -/
theorem replaceFold_install : ∀ (pairs : List (Nat × Nat))
    (st : ClassTable × List Bool × List (Nat × Nat)),
    (pairs.map Prod.snd).Nodup →
    (∀ q ∈ pairs, ∀ r ∈ pairs, q.2 ≠ r.1) →
    ∀ p ∈ pairs, ∀ c : ClassV, (st.1)[p.1]? = some (some c) → p.2 < (st.1).length →
      ((pairs.foldl commitReplaceStep st).1)[p.2]? = some (some { c with cid := p.2 })
  | [], _, _, _, p, hp, _, _, _ => absurd hp (by simp)
  | q :: rest, st, hnd, hcross, p, hp, c, hc, hlt => by
      have hnd' : (rest.map Prod.snd).Nodup := (List.nodup_cons.mp (by simpa using hnd)).2
      have hnotin : q.2 ∉ rest.map Prod.snd := (List.nodup_cons.mp (by simpa using hnd)).1
      rcases st with ⟨tbl, dead, bc⟩
      rw [List.foldl_cons]
      rcases List.mem_cons.mp hp with h0 | hrest
      · subst h0
        rcases p with ⟨n, o⟩
        have huntouched : ∀ r ∈ rest, r.2 ≠ o := by
          intro r hr hc2
          have hmem : r.2 ∈ rest.map Prod.snd := List.mem_map_of_mem Prod.snd hr
          rw [hc2] at hmem
          exact hnotin hmem
        rw [replaceFold_untouched rest _ o huntouched]
        have hstep : (commitReplaceStep (tbl, dead, bc) (n, o)).1 =
            replaceClass tbl o { c with cid := c.cid } := by
          simp [commitReplaceStep, hc]
        rw [hstep]
        unfold replaceClass
        have : ({ c with cid := c.cid } : ClassV) = c := rfl
        rw [this]
        exact List.getElem?_set_self hlt
      · have hq2p1 : q.2 ≠ p.1 :=
          hcross q (List.mem_cons_self _ _) p (List.mem_cons_of_mem q hrest)
        have hcross' : ∀ a ∈ rest, ∀ b ∈ rest, a.2 ≠ b.1 := fun a ha b hb =>
          hcross a (List.mem_cons_of_mem q ha) b (List.mem_cons_of_mem q hb)
        have hc' : ((commitReplaceStep (tbl, dead, bc) q).1)[p.1]? = some (some c) := by
          rcases q with ⟨n0, o0⟩
          cases htn : tbl[n0]? with
          | none => simpa [commitReplaceStep, htn] using hc
          | some oc =>
              cases oc with
              | none => simpa [commitReplaceStep, htn] using hc
              | some c0 =>
                  simp only [commitReplaceStep, htn]
                  show (replaceClass tbl o0 c0)[p.1]? = some (some c)
                  unfold replaceClass
                  rw [List.getElem?_set_ne hq2p1]
                  exact hc
        have hlt' : p.2 < ((commitReplaceStep (tbl, dead, bc) q).1).length := by
          rcases q with ⟨n0, o0⟩
          cases htn : tbl[n0]? with
          | none => simpa [commitReplaceStep, htn] using hlt
          | some oc =>
              cases oc with
              | none => simpa [commitReplaceStep, htn] using hlt
              | some c0 => simpa [commitReplaceStep, htn, replaceClass] using hlt
        exact replaceFold_install rest _ hnd' hcross' p hrest c hc' hlt'

/-- The compaction loop never rewrites a slot below the scan position. -/
theorem compactLoop_below (tbl : ClassTable) (dead : List Bool)
    (newTop freeIndex top i : Nat) (hi : i < freeIndex) :
    ((compactLoop tbl dead newTop freeIndex top).1)[i]? = tbl[i]? := by
  rw [compactLoop]
  by_cases h : freeIndex < top
  · rw [dif_pos h]
    by_cases hd : dead.getD freeIndex true
    · rw [if_pos hd]
      cases hfl : findLiveIndex dead top (freeIndex + 1) with
      | some k =>
          rw [compactLoop_below (moveClass tbl freeIndex k) (dead.set k true)
            (newTop + 1) (freeIndex + 1) top i (by omega)]
          unfold moveClass
          cases tbl[k]? with
          | none => rfl
          | some oc =>
              cases oc with
              | none => rfl
              | some c => exact List.getElem?_set_ne (by omega)
      | none => exact compactLoop_below tbl dead newTop (freeIndex + 1) top i (by omega)
    · rw [if_neg hd]
      exact compactLoop_below tbl dead (newTop + 1) (freeIndex + 1) top i (by omega)
  · rw [dif_neg h]
termination_by top - freeIndex

/-- The compaction loop never decreases `newTop`. -/
theorem compactLoop_newTop_ge (tbl : ClassTable) (dead : List Bool)
    (newTop freeIndex top : Nat) :
    newTop ≤ (compactLoop tbl dead newTop freeIndex top).2.2 := by
  rw [compactLoop]
  by_cases h : freeIndex < top
  · rw [dif_pos h]
    by_cases hd : dead.getD freeIndex true
    · rw [if_pos hd]
      cases hfl : findLiveIndex dead top (freeIndex + 1) with
      | some k =>
          exact le_trans (by omega)
            (compactLoop_newTop_ge (moveClass tbl freeIndex k) (dead.set k true)
              (newTop + 1) (freeIndex + 1) top)
      | none => exact compactLoop_newTop_ge tbl dead newTop (freeIndex + 1) top
    · rw [if_neg hd]
      exact le_trans (by omega)
        (compactLoop_newTop_ge tbl dead (newTop + 1) (freeIndex + 1) top)
  · rw [dif_neg h]
termination_by top - freeIndex

/-- Compaction never touches a slot below the saved class count. -/
theorem compactClassTable_below (tbl : ClassTable) (dead : List Bool)
    (saved i : Nat) (hi : i < saved) :
    (compactClassTable tbl dead saved)[i]? = tbl[i]? := by
  have hge := compactLoop_newTop_ge tbl dead saved saved tbl.length
  have hbelow := compactLoop_below tbl dead saved saved tbl.length i hi
  unfold compactClassTable dropNewClasses
  rw [List.getElem?_take, if_pos (by omega)]
  exact hbelow

/-- C2: after the `ReplaceClasses` phase of Commit and class-table compaction,
every replacement class sits at the replaced class's cid with its stored cid
updated to it, and every slot below the pre-reload class count that is not a
replaced cid is unchanged - so compaction moves only classes at or above the
pre-reload count, and every class present both before and after keeps its cid. -/
theorem commit_cid_stability (tbl : ClassTable) (dead : List Bool)
    (pairs : List (Nat × Nat)) (saved : Nat)
    (hnd : (pairs.map Prod.snd).Nodup)
    (hrange : ∀ q ∈ pairs, q.2 < saved ∧ saved ≤ q.1 ∧ q.1 < tbl.length)
    (hsaved : saved ≤ tbl.length) :
    (∀ p ∈ pairs, ∀ c : ClassV, tbl[p.1]? = some (some c) →
      (compactClassTable (commitReplacePhase tbl dead pairs).1
          (commitReplacePhase tbl dead pairs).2.1 saved)[p.2]? =
        some (some { c with cid := p.2 })) ∧
    (∀ i : Nat, i < saved → i ∉ pairs.map Prod.snd →
      (compactClassTable (commitReplacePhase tbl dead pairs).1
          (commitReplacePhase tbl dead pairs).2.1 saved)[i]? = tbl[i]?) := by
  have hcross : ∀ q ∈ pairs, ∀ r ∈ pairs, q.2 ≠ r.1 := by
    intro q hq r hr
    have h1 := (hrange q hq).1
    have h2 := (hrange r hr).2.1
    omega
  constructor
  · intro p hp c hc
    have hlt2 : p.2 < saved := (hrange p hp).1
    rw [compactClassTable_below _ _ saved p.2 hlt2]
    exact replaceFold_install pairs (tbl, dead, []) hnd hcross p hp c hc
      (lt_of_lt_of_le hlt2 hsaved)
  · intro i hi hnotin
    rw [compactClassTable_below _ _ saved i hi]
    exact replaceFold_untouched pairs (tbl, dead, []) i
      (fun p hp hc => hnotin (hc ▸ List.mem_map_of_mem Prod.snd hp))

/-- C2 witness: in the three-slot table, the replacement loaded at cid 2
replaces the class at cid 1 and, after compaction, sits at cid 1 with its
stored cid updated; slot 0 is untouched. -/
theorem commit_cid_stability_witness :
    (([(2, 1)] : List (Nat × Nat)).map Prod.snd).Nodup ∧
    (compactClassTable (commitReplacePhase tblC2 [false, false, false] [(2, 1)]).1
        (commitReplacePhase tblC2 [false, false, false] [(2, 1)]).2.1 2)[1]? =
      some (some { cid := 1, cname := "B", libUrl := some "file:///m.dart",
                   isPatch := false, instanceSize := 4 }) := by
  refine ⟨by decide, ?_⟩
  have h := (commit_cid_stability tblC2 [false, false, false] [(2, 1)] 2
      (by decide) (by decide) (by decide)).1 (2, 1) (by simp)
      { cid := 2, cname := "B", libUrl := some "file:///m.dart",
        isPatch := false, instanceSize := 4 } (by decide)
  simpa using h

/-- `set_index` preserves the store's length. -/
theorem setLibIndex_length (store : LibStore) (id : LibId) (v : Int) :
    (setLibIndex store id v).length = store.length := by
  unfold setLibIndex
  cases h : store[id]? <;> simp

/-- `set_index` leaves every other library alone. -/
theorem setLibIndex_get_ne (store : LibStore) (id j : LibId) (v : Int) (h : id ≠ j) :
    (setLibIndex store id v)[j]? = store[j]? := by
  unfold setLibIndex
  cases hh : store[id]? with
  | none => rfl
  | some lib => exact List.getElem?_set_ne h

/-- `set_index` updates exactly the index of the target library. -/
theorem setLibIndex_get_self (store : LibStore) (id : LibId) (v : Int) (lib : LibraryV)
    (h : store[id]? = some lib) :
    (setLibIndex store id v)[id]? = some { lib with index := v } := by
  unfold setLibIndex
  rw [h]
  exact List.getElem?_set_self (getElem?_some_lt store id lib h)

/-- `set_index` does not change which libraries are dart-scheme. -/
theorem isCleanLib_setLibIndex (store : LibStore) (id : LibId) (v : Int) (j : LibId) :
    isCleanLib (setLibIndex store id v) j = isCleanLib store j := by
  by_cases h : id = j
  · subst h
    cases hh : store[id]? with
    | none =>
        unfold setLibIndex
        rw [hh]
    | some lib =>
        unfold isCleanLib
        rw [setLibIndex_get_self store id v lib hh, hh]
  · unfold isCleanLib
    rw [setLibIndex_get_ne store id j v h]

/-- Behaviour of the `CheckpointLibraries` loop: the produced list is the
dart-scheme filter of the pending libraries appended to the accumulator, each
listed library's index equals its list position, every non-dart-scheme library
gets index -1, and unprocessed libraries are untouched. -/
theorem checkpointLibsLoop_spec : ∀ (pending : List LibId) (store : LibStore)
    (acc : List LibId),
    pending.Nodup →
    (∀ id ∈ pending, id < store.length) →
    (∀ id ∈ pending, id ∉ acc) →
    (∀ (k : Nat) (id : LibId), acc[k]? = some id →
      (store[id]?).map LibraryV.index = some (Int.ofNat k)) →
    ((checkpointLibsLoop store pending acc).2 =
      acc ++ pending.filter (isCleanLib store)) ∧
    ((checkpointLibsLoop store pending acc).1.length = store.length) ∧
    (∀ (k : Nat) (id : LibId), (checkpointLibsLoop store pending acc).2[k]? = some id →
      ((checkpointLibsLoop store pending acc).1[id]?).map LibraryV.index =
        some (Int.ofNat k)) ∧
    (∀ id ∈ pending, isCleanLib store id = false →
      ((checkpointLibsLoop store pending acc).1[id]?).map LibraryV.index = some (-1)) ∧
    (∀ j : Nat, j ∉ pending → (checkpointLibsLoop store pending acc).1[j]? = store[j]?)
  | [], store, acc, _, _, _, hinv => by
      refine ⟨by simp [checkpointLibsLoop], rfl, ?_, by simp, fun j _ => rfl⟩
      intro k id hk
      exact hinv k id hk
  | id :: rest, store, acc, hnd, hlt, hdisj, hinv => by
      have hndr : rest.Nodup := (List.nodup_cons.mp hnd).2
      have hidr : id ∉ rest := (List.nodup_cons.mp hnd).1
      have hidlt : id < store.length := hlt id (List.mem_cons_self _ _)
      obtain ⟨lib, hsid⟩ : ∃ lib, store[id]? = some lib :=
        ⟨store.get ⟨id, hidlt⟩, by rw [List.getElem?_eq_getElem hidlt]; rfl⟩
      by_cases hds : lib.isDartScheme = true
      · -- clean library: new compact index, joins the list
        have hclean : isCleanLib store id = true := by simp [isCleanLib, hsid, hds]
        have hloop : checkpointLibsLoop store (id :: rest) acc =
            checkpointLibsLoop (setLibIndex store id (Int.ofNat acc.length)) rest
              (acc ++ [id]) := by
          conv_lhs => rw [checkpointLibsLoop]
          rw [hsid]
          simp [hds]
        set store1 := setLibIndex store id (Int.ofNat acc.length) with hstore1
        have hlen1 : store1.length = store.length := setLibIndex_length store id _
        have ih := checkpointLibsLoop_spec rest store1 (acc ++ [id]) hndr
          (fun a ha => by rw [hlen1]; exact hlt a (List.mem_cons_of_mem id ha))
          (fun a ha hmem => by
            rcases List.mem_append.mp hmem with hacc | hsing
            · exact hdisj a (List.mem_cons_of_mem id ha) hacc
            · rw [List.mem_singleton.mp hsing] at ha
              exact hidr ha)
          (fun k a hk => by
            rcases Nat.lt_or_ge k acc.length with hklt | hkge
            · rw [List.getElem?_append, if_pos hklt] at hk
              have hne : id ≠ a := by
                intro hc
                exact hdisj id (List.mem_cons_self _ _) (hc ▸ List.getElem?_mem hk)
              rw [hstore1, setLibIndex_get_ne store id a _ hne]
              exact hinv k a hk
            · rw [List.getElem?_append, if_neg (by omega)] at hk
              have hk0 : k - acc.length = 0 ∧ a = id := by
                cases hke : k - acc.length with
                | zero =>
                    rw [hke] at hk
                    exact ⟨rfl, by simpa using hk.symm⟩
                | succ m =>
                    rw [hke] at hk
                    simp at hk
              obtain ⟨hke, rfl⟩ := hk0
              have hkeq : k = acc.length := by omega
              subst hkeq
              rw [hstore1, setLibIndex_get_self store a _ lib hsid]
              rfl)
        rw [hloop]
        refine ⟨?_, ?_, ih.2.2.1, ?_, ?_⟩
        · rw [ih.1]
          have hfc : rest.filter (isCleanLib store1) = rest.filter (isCleanLib store) :=
            List.filter_congr (fun a _ => by rw [hstore1, isCleanLib_setLibIndex])
          rw [hfc, List.filter_cons, if_pos (by simp [hclean])]
          simp
        · rw [ih.2.1, hlen1]
        · intro a ha hdirtya
          rcases List.mem_cons.mp ha with rfl | har
          · rw [hclean] at hdirtya
            cases hdirtya
          · exact ih.2.2.2.1 a har
              (by rw [hstore1, isCleanLib_setLibIndex]; exact hdirtya)
        · intro j hj
          have hjr : j ∉ rest := fun hc => hj (List.mem_cons_of_mem id hc)
          have hjid : id ≠ j := fun hc => hj (hc ▸ List.mem_cons_self _ _)
          rw [ih.2.2.2.2 j hjr, hstore1, setLibIndex_get_ne store id j _ hjid]
      · -- reloadable library: index cleared to -1
        have hds' : lib.isDartScheme = false := by
          cases hb : lib.isDartScheme
          · rfl
          · exact absurd hb hds
        have hdirty : isCleanLib store id = false := by simp [isCleanLib, hsid, hds']
        have hloop : checkpointLibsLoop store (id :: rest) acc =
            checkpointLibsLoop (setLibIndex store id (-1)) rest acc := by
          conv_lhs => rw [checkpointLibsLoop]
          rw [hsid]
          simp [hds']
        set store1 := setLibIndex store id (-1) with hstore1
        have hlen1 : store1.length = store.length := setLibIndex_length store id _
        have ih := checkpointLibsLoop_spec rest store1 acc hndr
          (fun a ha => by rw [hlen1]; exact hlt a (List.mem_cons_of_mem id ha))
          (fun a ha => hdisj a (List.mem_cons_of_mem id ha))
          (fun k a hk => by
            have hne : id ≠ a := by
              intro hc
              exact hdisj id (List.mem_cons_self _ _) (hc ▸ List.getElem?_mem hk)
            rw [hstore1, setLibIndex_get_ne store id a _ hne]
            exact hinv k a hk)
        rw [hloop]
        refine ⟨?_, ?_, ih.2.2.1, ?_, ?_⟩
        · rw [ih.1]
          have hfc : rest.filter (isCleanLib store1) = rest.filter (isCleanLib store) :=
            List.filter_congr (fun a _ => by rw [hstore1, isCleanLib_setLibIndex])
          rw [hfc, List.filter_cons, if_neg (by simp [hdirty])]
        · rw [ih.2.1, hlen1]
        · intro a ha hda
          rcases List.mem_cons.mp ha with rfl | har
          · rw [ih.2.2.2.2 a hidr, hstore1, setLibIndex_get_self store a (-1) lib hsid]
            rfl
          · exact ih.2.2.2.1 a har
              (by rw [hstore1, isCleanLib_setLibIndex]; exact hda)
        · intro j hj
          have hjr : j ∉ rest := fun hc => hj (List.mem_cons_of_mem id hc)
          have hjid : id ≠ j := fun hc => hj (hc ▸ List.mem_cons_self _ _)
          rw [ih.2.2.2.2 j hjr, hstore1, setLibIndex_get_ne store id j _ hjid]

/-- C8: after `CheckpointLibraries`, the isolate's libraries list holds
exactly the dart-scheme libraries in their original relative order, each with
index equal to its position in the new list; every non-dart-scheme library's
index is -1; the full original list and the root library are saved in the
context; and the isolate's root library is cleared. -/
theorem checkpointLibraries_spec (vm : VM)
    (hnd : vm.iso.libs.Nodup)
    (hids : ∀ id ∈ vm.iso.libs, id < vm.iso.libStore.length) :
    (checkpointLibraries vm).iso.libs =
      vm.iso.libs.filter (isCleanLib vm.iso.libStore) ∧
    (∀ (k : Nat) (id : LibId), (checkpointLibraries vm).iso.libs[k]? = some id →
      ((checkpointLibraries vm).iso.libStore[id]?).map LibraryV.index =
        some (Int.ofNat k)) ∧
    (∀ id ∈ vm.iso.libs, isCleanLib vm.iso.libStore id = false →
      ((checkpointLibraries vm).iso.libStore[id]?).map LibraryV.index = some (-1)) ∧
    (checkpointLibraries vm).ctx.savedLibs = some vm.iso.libs ∧
    (checkpointLibraries vm).ctx.savedRootLib = vm.iso.rootLib ∧
    (checkpointLibraries vm).iso.rootLib = none := by
  have h := checkpointLibsLoop_spec vm.iso.libs vm.iso.libStore [] hnd hids
    (fun id _ hmem => by cases hmem) (fun k id hk => by simp at hk)
  refine ⟨?_, ?_, ?_, rfl, rfl, rfl⟩
  · show (checkpointLibsLoop vm.iso.libStore vm.iso.libs []).2 = _
    rw [h.1]
    simp
  · intro k id hk
    exact h.2.2.1 k id hk
  · intro id hid hdirty
    exact h.2.2.2.1 id hid hdirty

/-- C8 witness: the small isolate keeps only `dart:core` in the list, the
user library gets index -1, and the original list is saved. -/
theorem checkpointLibraries_spec_witness :
    vmSmall.iso.libs.Nodup ∧
    (checkpointLibraries vmSmall).iso.libs = [0] ∧
    ((checkpointLibraries vmSmall).iso.libStore[1]?).map LibraryV.index = some (-1) ∧
    (checkpointLibraries vmSmall).ctx.savedLibs = some [0, 1] := by
  have h := checkpointLibraries_spec vmSmall (by decide) (by decide)
  refine ⟨by decide, ?_, ?_, ?_⟩
  · rw [h.1]
    decide
  · exact h.2.2.1 1 (by decide) (by decide)
  · exact h.2.2.2.1

/-- The `CheckpointLibraries` loop preserves the store's length. -/
theorem checkpointLibsLoop_length : ∀ (pending : List LibId) (store : LibStore)
    (acc : List LibId),
    (checkpointLibsLoop store pending acc).1.length = store.length
  | [], _, _ => rfl
  | id :: rest, store, acc => by
      cases hh : store[id]? with
      | none =>
          have hunf : checkpointLibsLoop store (id :: rest) acc =
              checkpointLibsLoop store rest acc := by
            conv_lhs => rw [checkpointLibsLoop]
            rw [hh]
          rw [hunf, checkpointLibsLoop_length rest store acc]
      | some lib =>
          by_cases hds : lib.isDartScheme = true
          · have hunf : checkpointLibsLoop store (id :: rest) acc =
                checkpointLibsLoop (setLibIndex store id (Int.ofNat acc.length)) rest
                  (acc ++ [id]) := by
              conv_lhs => rw [checkpointLibsLoop]
              rw [hh]
              simp [hds]
            rw [hunf, checkpointLibsLoop_length rest _ _, setLibIndex_length]
          · have hds' : lib.isDartScheme = false := by
              cases hb : lib.isDartScheme
              · rfl
              · exact absurd hb hds
            have hunf : checkpointLibsLoop store (id :: rest) acc =
                checkpointLibsLoop (setLibIndex store id (-1)) rest acc := by
              conv_lhs => rw [checkpointLibsLoop]
              rw [hh]
              simp [hds']
            rw [hunf, checkpointLibsLoop_length rest _ _, setLibIndex_length]

/-- The index-reassignment loop preserves the store's length. -/
theorem reassignIndicesLoop_length : ∀ (l : List LibId) (store : LibStore) (i : Nat),
    (reassignIndicesLoop store l i).length = store.length
  | [], _, _ => rfl
  | id :: rest, store, i => by
      show (reassignIndicesLoop (setLibIndex store id (Int.ofNat i)) rest (i + 1)).length = _
      rw [reassignIndicesLoop_length rest _ _, setLibIndex_length]

/-- The index-reassignment loop leaves libraries outside the list alone. -/
theorem reassignIndicesLoop_not_mem : ∀ (l : List LibId) (store : LibStore) (i : Nat)
    (j : Nat), j ∉ l → (reassignIndicesLoop store l i)[j]? = store[j]?
  | [], _, _, _, _ => rfl
  | id :: rest, store, i, j, hj => by
      show (reassignIndicesLoop (setLibIndex store id (Int.ofNat i)) rest (i + 1))[j]? = _
      rw [reassignIndicesLoop_not_mem rest _ _ j (fun hc => hj (List.mem_cons_of_mem id hc)),
        setLibIndex_get_ne store id j _ (fun hc => hj (hc ▸ List.mem_cons_self _ _))]

/-- The index-reassignment loop gives the library at list position `k` the
index `i + k`. -/
theorem reassignIndicesLoop_get : ∀ (l : List LibId) (store : LibStore) (i : Nat),
    l.Nodup → ∀ (k : Nat) (id : LibId), l[k]? = some id → id < store.length →
    ((reassignIndicesLoop store l i)[id]?).map LibraryV.index = some (Int.ofNat (i + k))
  | [], _, _, _, k, id, hk, _ => by simp at hk
  | id0 :: rest, store, i, hnd, k, id, hk, hlt => by
      have hndr : rest.Nodup := (List.nodup_cons.mp hnd).2
      have hid0r : id0 ∉ rest := (List.nodup_cons.mp hnd).1
      show ((reassignIndicesLoop (setLibIndex store id0 (Int.ofNat i)) rest (i + 1))[id]?).map
        LibraryV.index = _
      cases k with
      | zero =>
          have hid : id = id0 := by simpa using hk.symm
          subst hid
          obtain ⟨lib, hsid⟩ : ∃ lib, store[id]? = some lib :=
            ⟨store.get ⟨id, hlt⟩, by rw [List.getElem?_eq_getElem hlt]; rfl⟩
          rw [reassignIndicesLoop_not_mem rest _ _ id hid0r,
            setLibIndex_get_self store id _ lib hsid]
          simp
      | succ m =>
          have hkm : rest[m]? = some id := by simpa using hk
          have := reassignIndicesLoop_get rest (setLibIndex store id0 (Int.ofNat i)) (i + 1)
            hndr m id hkm (by rw [setLibIndex_length]; exact hlt)
          rw [this]
          have harith : i + 1 + m = i + (m + 1) := by omega
          rw [harith]

/-- One run of the `ValidateReload` loop either passes leaving the context
alone, or stops at the first failing pair having reported exactly its
diagnostic. -/
theorem validateLoop_result : ∀ (l : List (Nat × Nat)) (vm : VM),
    validateLoop vm l = (true, vm) ∨
    ∃ msg, validateLoop vm l = (false, reportError vm msg)
  | [], vm => Or.inl rfl
  | (n, o) :: rest, vm => by
      by_cases hno : n = o
      · have hunf : validateLoop vm ((n, o) :: rest) = validateLoop vm rest := by
          conv_lhs => rw [validateLoop]
          rw [if_pos hno]
        rw [hunf]
        exact validateLoop_result rest vm
      · rcases hold : vm.iso.classTable[o]? with _ | (_ | oldC)
        · have hunf : validateLoop vm ((n, o) :: rest) = validateLoop vm rest := by
            conv_lhs => rw [validateLoop]
            rw [if_neg hno, hold]
          rw [hunf]
          exact validateLoop_result rest vm
        · have hunf : validateLoop vm ((n, o) :: rest) = validateLoop vm rest := by
            conv_lhs => rw [validateLoop]
            rw [if_neg hno, hold]
          rw [hunf]
          exact validateLoop_result rest vm
        · rcases hnew : vm.iso.classTable[n]? with _ | (_ | newC)
          · have hunf : validateLoop vm ((n, o) :: rest) = validateLoop vm rest := by
              conv_lhs => rw [validateLoop]
              rw [if_neg hno, hold, hnew]
            rw [hunf]
            exact validateLoop_result rest vm
          · have hunf : validateLoop vm ((n, o) :: rest) = validateLoop vm rest := by
              conv_lhs => rw [validateLoop]
              rw [if_neg hno, hold, hnew]
            rw [hunf]
            exact validateLoop_result rest vm
          · by_cases hok : (canReload oldC newC).ok = true
            · have hunf : validateLoop vm ((n, o) :: rest) = validateLoop vm rest := by
                conv_lhs => rw [validateLoop]
                rw [if_neg hno, hold, hnew]
                simp [hok]
              rw [hunf]
              exact validateLoop_result rest vm
            · have hokf : (canReload oldC newC).ok = false := by
                cases hb : (canReload oldC newC).ok
                · rfl
                · exact absurd hb hok
              obtain ⟨m, hm⟩ : ∃ m, (canReload oldC newC).reported = some m := by
                have := canReload_false_reported oldC newC hokf
                cases hr : (canReload oldC newC).reported with
                | none => exact absurd hr this
                | some m => exact ⟨m, rfl⟩
              right
              refine ⟨m, ?_⟩
              conv_lhs => rw [validateLoop]
              rw [if_neg hno, hold, hnew]
              simp [hokf, hm]

/-- `ValidateReload` either returns the context unchanged or with exactly one
reported error. -/
theorem validateReload_snd (vm : VM) :
    (validateReload vm).2 = vm ∨
    ∃ msg, (validateReload vm).2 = reportError vm msg := by
  unfold validateReload
  cases hhe : vm.ctx.hasError
  · simp only [hhe, Bool.false_eq_true, if_false]
    rcases validateLoop_result vm.ctx.classMap vm with h | ⟨msg, h⟩
    · left
      rw [h]
    · right
      exact ⟨msg, by rw [h]⟩
  · left
    simp [hhe]

/-- `ReportError` touches only the error channel and the event log. -/
theorem reportError_frame (vm : VM) (m : String) :
    (reportError vm m).iso = vm.iso ∧
    (reportError vm m).ctx.savedNumCids = vm.ctx.savedNumCids ∧
    (reportError vm m).ctx.savedLibs = vm.ctx.savedLibs ∧
    (reportError vm m).ctx.savedRootLib = vm.ctx.savedRootLib :=
  ⟨rfl, rfl, rfl, rfl⟩

/-- The mapping phase builds tables in the context but leaves the isolate,
the checkpoint storage, the error channel and the event log alone. -/
theorem mappingPhase_frame (vm : VM) :
    (mappingPhase vm).iso = vm.iso ∧
    (mappingPhase vm).ctx.savedNumCids = vm.ctx.savedNumCids ∧
    (mappingPhase vm).ctx.savedLibs = vm.ctx.savedLibs ∧
    (mappingPhase vm).ctx.savedRootLib = vm.ctx.savedRootLib ∧
    (mappingPhase vm).ctx.hasError = vm.ctx.hasError ∧
    (mappingPhase vm).events = vm.events :=
  ⟨rfl, rfl, rfl, rfl, rfl, rfl⟩

/-- `RollbackClasses` only truncates the class table. -/
theorem rollbackClasses_frame (vm : VM) :
    (rollbackClasses vm).iso.classTable =
      dropNewClasses vm.iso.classTable vm.ctx.savedNumCids ∧
    (rollbackClasses vm).iso.libStore = vm.iso.libStore ∧
    (rollbackClasses vm).iso.libs = vm.iso.libs ∧
    (rollbackClasses vm).iso.rootLib = vm.iso.rootLib ∧
    (rollbackClasses vm).iso.canonTypeArgs = vm.iso.canonTypeArgs ∧
    (rollbackClasses vm).ctx = vm.ctx :=
  ⟨rfl, rfl, rfl, rfl, rfl, rfl⟩

/-- `RollbackLibraries` when a saved list is present: the libraries list is
restored, indices are reasserted, and the rest of the isolate is untouched. -/
theorem rollbackLibraries_of_saved (w : VM) (sl : List LibId)
    (hsl : w.ctx.savedLibs = some sl) :
    (rollbackLibraries w).iso.libs = sl ∧
    (rollbackLibraries w).iso.libStore = reassignIndicesLoop w.iso.libStore sl 0 ∧
    (rollbackLibraries w).iso.rootLib =
      (match w.ctx.savedRootLib with
       | some r => some r
       | none => w.iso.rootLib) ∧
    (rollbackLibraries w).iso.classTable = w.iso.classTable ∧
    (rollbackLibraries w).iso.canonTypeArgs = w.iso.canonTypeArgs := by
  unfold rollbackLibraries
  rw [hsl]
  exact ⟨rfl, rfl, rfl, rfl, rfl⟩

/-- C1: if the loader reported an error or shape validation fails,
`FinishReload` rolls back: the libraries list again holds exactly the saved
libraries in their original order with each library's index reset to its list
position, the saved root library is restored, every class-table slot at cid at
or above the pre-reload class count is dropped (restoring the pre-reload
table, hence the pre-reload class count and every static field value stored in
those classes), and the canonical type-arguments table is untouched by this
path. -/
theorem finishReload_rollback_spec (s0 mid : VM) (r : LibId)
    (hroot : s0.iso.rootLib = some r)
    (hnd : s0.iso.libs.Nodup)
    (hids : ∀ id ∈ s0.iso.libs, id < s0.iso.libStore.length)
    (hload : LoaderStep (checkpoint s0) mid)
    (hfail : (validateReload (mappingPhase mid)).1 = false) :
    (finishReload mid).iso.libs = s0.iso.libs ∧
    (∀ (k : Nat) (id : LibId), s0.iso.libs[k]? = some id →
      ((finishReload mid).iso.libStore[id]?).map LibraryV.index = some (Int.ofNat k)) ∧
    (finishReload mid).iso.rootLib = s0.iso.rootLib ∧
    (finishReload mid).iso.classTable = s0.iso.classTable ∧
    (finishReload mid).iso.canonTypeArgs = mid.iso.canonTypeArgs := by
  obtain ⟨⟨extra, hct⟩, ⟨extraL, hlst⟩, hcid, hslib, hsroot, hnum⟩ := hload
  have hs1libs : (checkpoint s0).ctx.savedLibs = some s0.iso.libs := rfl
  have hs1root : (checkpoint s0).ctx.savedRootLib = s0.iso.rootLib := rfl
  have hs1cids : (checkpoint s0).ctx.savedNumCids = s0.iso.classTable.length := rfl
  have hs1ct : (checkpoint s0).iso.classTable = s0.iso.classTable := rfl
  have hs1len : (checkpoint s0).iso.libStore.length = s0.iso.libStore.length := by
    show (checkpointLibsLoop s0.iso.libStore s0.iso.libs []).1.length = _
    exact checkpointLibsLoop_length s0.iso.libs s0.iso.libStore []
  have hfin : finishReload mid = rollback (validateReload (mappingPhase mid)).2 := by
    unfold finishReload finishReloadCore
    simp [hfail]
  rcases validateReload_snd (mappingPhase mid) with hv | ⟨msg, hv⟩ <;>
  [ (have hw2iso : (validateReload (mappingPhase mid)).2.iso = mid.iso := by
      rw [hv]
      exact (mappingPhase_frame mid).1);
    (have hw2iso : (validateReload (mappingPhase mid)).2.iso = mid.iso := by
      rw [hv, (reportError_frame (mappingPhase mid) msg).1]
      exact (mappingPhase_frame mid).1) ] <;>
  [ (have hw2cids : (validateReload (mappingPhase mid)).2.ctx.savedNumCids =
        mid.ctx.savedNumCids := by
      rw [hv]
      exact (mappingPhase_frame mid).2.1);
    (have hw2cids : (validateReload (mappingPhase mid)).2.ctx.savedNumCids =
        mid.ctx.savedNumCids := by
      rw [hv, (reportError_frame (mappingPhase mid) msg).2.1]
      exact (mappingPhase_frame mid).2.1) ] <;>
  [ (have hw2slib : (validateReload (mappingPhase mid)).2.ctx.savedLibs =
        mid.ctx.savedLibs := by
      rw [hv]
      exact (mappingPhase_frame mid).2.2.1);
    (have hw2slib : (validateReload (mappingPhase mid)).2.ctx.savedLibs =
        mid.ctx.savedLibs := by
      rw [hv, (reportError_frame (mappingPhase mid) msg).2.2.1]
      exact (mappingPhase_frame mid).2.2.1) ] <;>
  [ (have hw2sroot : (validateReload (mappingPhase mid)).2.ctx.savedRootLib =
        mid.ctx.savedRootLib := by
      rw [hv]
      exact (mappingPhase_frame mid).2.2.2.1);
    (have hw2sroot : (validateReload (mappingPhase mid)).2.ctx.savedRootLib =
        mid.ctx.savedRootLib := by
      rw [hv, (reportError_frame (mappingPhase mid) msg).2.2.2]
      exact (mappingPhase_frame mid).2.2.2.1) ] <;>
  · set w2 := (validateReload (mappingPhase mid)).2 with hw2def
    set w := rollbackClasses w2 with hwdef
    have hwct : w.iso.classTable = s0.iso.classTable := by
      rw [hwdef, (rollbackClasses_frame w2).1, hw2iso, hw2cids, hcid, hs1cids, hct, hs1ct]
      unfold dropNewClasses
      exact List.take_left _ _
    have hwslib : w.ctx.savedLibs = some s0.iso.libs := by
      rw [hwdef, show (rollbackClasses w2).ctx = w2.ctx from rfl, hw2slib, hslib]
      exact hs1libs
    have hwsroot : w.ctx.savedRootLib = some r := by
      rw [hwdef, show (rollbackClasses w2).ctx = w2.ctx from rfl, hw2sroot, hsroot,
        hs1root]
      exact hroot
    have hwstore : w.iso.libStore = mid.iso.libStore := by
      rw [hwdef, (rollbackClasses_frame w2).2.1, hw2iso]
    have hwcanon : w.iso.canonTypeArgs = mid.iso.canonTypeArgs := by
      rw [hwdef, (rollbackClasses_frame w2).2.2.2.2.1, hw2iso]
    have hrl := rollbackLibraries_of_saved w s0.iso.libs hwslib
    have hroll : finishReload mid = rollbackLibraries w := by
      rw [hfin]
      rfl
    refine ⟨?_, ?_, ?_, ?_, ?_⟩
    · rw [hroll]
      exact hrl.1
    · intro k id hk
      rw [hroll, hrl.2.1, hwstore]
      have hidlt : id < mid.iso.libStore.length := by
        have hmem : id ∈ s0.iso.libs := List.getElem?_mem hk
        have h1 : id < s0.iso.libStore.length := hids id hmem
        have h2 : mid.iso.libStore.length =
            (checkpoint s0).iso.libStore.length + extraL.length := by
          rw [hlst]
          simp
        have h3 : (checkpoint s0).iso.libStore.length = s0.iso.libStore.length := by
          show (checkpointLibsLoop s0.iso.libStore s0.iso.libs []).1.length = _
          exact checkpointLibsLoop_length s0.iso.libs s0.iso.libStore []
        have h4 : s0.iso.libStore.length ≤ mid.iso.libStore.length := by
          rw [h2, h3]
          exact Nat.le_add_right _ _
        exact lt_of_lt_of_le h1 h4
      have := reassignIndicesLoop_get s0.iso.libs mid.iso.libStore 0 hnd k id hk hidlt
      simpa using this
    · rw [hroll, hrl.2.2.1, hwsroot, hroot]
    · rw [hroll, hrl.2.2.2.1, hwct]
    · rw [hroll, hrl.2.2.2.2, hwcanon]

/-- C1 witness: the small isolate with a loader parse error rolls back to its
pre-reload state. -/
theorem finishReload_rollback_spec_witness :
    vmSmall.iso.rootLib = some 1 ∧
    (finishReload vmSmallMid).iso.libs = [0, 1] ∧
    (finishReload vmSmallMid).iso.rootLib = some 1 ∧
    (finishReload vmSmallMid).iso.classTable = vmSmall.iso.classTable := by
  have h := finishReload_rollback_spec vmSmall vmSmallMid 1 (by decide) (by decide)
    (by decide)
    ⟨⟨[], by decide⟩, ⟨[], by decide⟩, by decide, by decide, by decide, by decide⟩
    (by decide)
  exact ⟨by decide, h.1, by rw [h.2.2.1]; decide, h.2.2.2.1⟩

/-- Rollback emits no event and does not touch the recorded error. -/
theorem rollback_events_frame (vm : VM) :
    (rollback vm).events = vm.events ∧ (rollback vm).ctx.errorMsg = vm.ctx.errorMsg :=
  ⟨rfl, rfl⟩

/-- Commit and PostCommit emit no event and do not touch the recorded error. -/
theorem commitPost_events_frame (vm : VM) :
    (postCommit (commit vm)).events = vm.events ∧
    (postCommit (commit vm)).ctx.errorMsg = vm.ctx.errorMsg :=
  ⟨rfl, rfl⟩

/-- C7: a reload run that reaches validation emits exactly one service event
before the context is destroyed - the reload-success event on the commit path
(emitted by the spec-modelled controller) and a reload-error event carrying
the first (and only recorded) diagnostic on the rollback path. -/
theorem reloadRun_one_event (vm : VM) (l : Option String)
    (hclean : vm.ctx.hasError = false) (hev : vm.events = []) :
    ∃ e : ServiceEvent, (reloadRun vm l).events = [e] ∧
      ((finishReloadCore (startReload vm l)).2 = true →
        e = ServiceEvent.reloadSuccess) ∧
      ((finishReloadCore (startReload vm l)).2 = false →
        ∃ msg, e = ServiceEvent.reloadError msg ∧
          (reloadRun vm l).ctx.errorMsg = some msg) := by
  cases l with
  | some err =>
      have hherr : (mappingPhase (startReload vm (some err))).ctx.hasError = true := rfl
      have hval : validateReload (mappingPhase (startReload vm (some err))) =
          (false, mappingPhase (startReload vm (some err))) := by
        unfold validateReload
        simp [hherr]
      have hcore : finishReloadCore (startReload vm (some err)) =
          (rollback (mappingPhase (startReload vm (some err))), false) := by
        unfold finishReloadCore
        simp [hval]
      have hrun : reloadRun vm (some err) =
          rollback (mappingPhase (startReload vm (some err))) := by
        unfold reloadRun
        simp [hcore]
      refine ⟨ServiceEvent.reloadError err, ?_, ?_, ?_⟩
      · rw [hrun, (rollback_events_frame _).1, (mappingPhase_frame _).2.2.2.2.2]
        show (checkpoint vm).events ++ [ServiceEvent.reloadError err] = _
        show vm.events ++ [ServiceEvent.reloadError err] = _
        rw [hev]
        rfl
      · intro hcommit
        rw [hcore] at hcommit
        cases hcommit
      · intro _
        refine ⟨err, rfl, ?_⟩
        rw [hrun, (rollback_events_frame _).2]
        rfl
  | none =>
      have hherr : (mappingPhase (startReload vm none)).ctx.hasError = false := hclean
      rcases validateLoop_result (mappingPhase (startReload vm none)).ctx.classMap
          (mappingPhase (startReload vm none)) with hpass | ⟨msg, hl⟩
      · have hval : validateReload (mappingPhase (startReload vm none)) =
            (true, mappingPhase (startReload vm none)) := by
          unfold validateReload
          simp [hherr]
          exact hpass
        have hcore : finishReloadCore (startReload vm none) =
            (postCommit (commit (mappingPhase (startReload vm none))), true) := by
          unfold finishReloadCore
          simp [hval]
        have hrun : reloadRun vm none =
            reportSuccess (postCommit (commit (mappingPhase (startReload vm none)))) := by
          unfold reloadRun
          simp [hcore]
        refine ⟨ServiceEvent.reloadSuccess, ?_, fun _ => rfl, ?_⟩
        · rw [hrun]
          show (postCommit (commit (mappingPhase (startReload vm none)))).events ++
            [ServiceEvent.reloadSuccess] = _
          rw [(commitPost_events_frame _).1, (mappingPhase_frame _).2.2.2.2.2]
          show vm.events ++ [ServiceEvent.reloadSuccess] = _
          rw [hev]
          rfl
        · intro hfalse
          rw [hcore] at hfalse
          cases hfalse
      · have hval : validateReload (mappingPhase (startReload vm none)) =
            (false, reportError (mappingPhase (startReload vm none)) msg) := by
          unfold validateReload
          simp [hherr]
          exact hl
        have hcore : finishReloadCore (startReload vm none) =
            (rollback (reportError (mappingPhase (startReload vm none)) msg), false) := by
          unfold finishReloadCore
          simp [hval]
        have hrun : reloadRun vm none =
            rollback (reportError (mappingPhase (startReload vm none)) msg) := by
          unfold reloadRun
          simp [hcore]
        refine ⟨ServiceEvent.reloadError msg, ?_, ?_, ?_⟩
        · rw [hrun, (rollback_events_frame _).1]
          show (mappingPhase (startReload vm none)).events ++
            [ServiceEvent.reloadError msg] = _
          rw [(mappingPhase_frame _).2.2.2.2.2]
          show vm.events ++ [ServiceEvent.reloadError msg] = _
          rw [hev]
          rfl
        · intro hcommit
          rw [hcore] at hcommit
          cases hcommit
        · intro _
          refine ⟨msg, rfl, ?_⟩
          rw [hrun, (rollback_events_frame _).2]
          rfl

/-- C7 witness: a clean run of the small isolate emits exactly one event. -/
theorem reloadRun_one_event_witness :
    vmSmall.ctx.hasError = false ∧ vmSmall.events = [] ∧
    ∃ e : ServiceEvent, (reloadRun vmSmall none).events = [e] := by
  refine ⟨by decide, rfl, ?_⟩
  obtain ⟨e, he, _⟩ := reloadRun_one_event vmSmall none (by decide) rfl
  exact ⟨e, he⟩

end DartReload
